import Mathlib

/-!
# RPL replay demo: secure node and attacker (`rpl-replay-demo.c`)

Shallow embedding of `src/rpl-replay-demo.c`: the secure node
(`NODE_IS_ATTACKER == 0`) and the attacker (`NODE_IS_ATTACKER == 1`).

* `uint32_t` values are natural numbers; arithmetic that can leave the 32-bit
  range (`rank + RANK_INCREMENT`, `next_nonce++`, `my_counter++`) is reduced
  with `u32`.
* The global variables of the C file are the fields of `State`.
* A handler takes the state, the source address and the datagram bytes and
  returns the new state together with the datagrams it sent.
* Contiki event timers are external: `pending_auth.timeout_timer` records what
  the program last did to the timer, and `check_auth_timeouts` receives, per
  slot, the answer `etimer_expired` gives at that moment.
-/

namespace RplReplayDemo

/-! ## Constants -/

/-- `#define SHARED_KEY 0xA5A5A5A5UL` -/
def SHARED_KEY : Nat := 0xA5A5A5A5

/-- `#define MAX_PENDING_AUTH 10` -/
abbrev MAX_PENDING_AUTH : Nat := 10

/-- `#define DEFAULT_RANK 1000000` -/
def DEFAULT_RANK : Nat := 1000000

/-- `#define RANK_INCREMENT 10` -/
def RANK_INCREMENT : Nat := 10

/-- `UINT32_MAX` of `<stdint.h>`. -/
def UINT32_MAX : Nat := 4294967295

/-- `#define MAX_COUNTER_VALUE UINT32_MAX` -/
def MAX_COUNTER_VALUE : Nat := UINT32_MAX

/-- Conversion of an unsigned result to `uint32_t`. -/
def u32 (n : Nat) : Nat := n % 4294967296

/-- The cast `(int)x` of a `uint32_t` (two's complement, 32-bit `int`). -/
def to_int (x : Nat) : Int := if x < 2147483648 then (x : Int) else (x : Int) - 4294967296

/-! ## Data model -/

/-- An IPv6 address (`uip_ipaddr_t`), as the 128-bit number its sixteen bytes
spell in network order; `uip_ipaddr_cmp` is equality. -/
abbrev uip_ipaddr_t : Type := Nat

/-- What the program last did to a `struct etimer`: nothing since it was
zeroed at start-up, `etimer_set`, or `etimer_stop`. -/
inductive etimer where
  | zeroed
  | armed
  | stopped
deriving DecidableEq, Repr

/-- `struct pending_auth` -/
structure pending_auth where
  src_addr : uip_ipaddr_t
  sender_id : Nat
  version : Nat
  rank : Nat
  counter : Nat
  nonce : Nat
  timeout_timer : etimer
  in_use : Bool
deriving DecidableEq, Repr

/-- The file-scope variables of the secure node. -/
structure State where
  my_node_id : Nat
  my_version : Nat
  my_rank : Nat
  my_counter : Nat
  my_parent_id : Int
  is_root : Bool
  next_nonce : Nat
  pending_auths : Fin MAX_PENDING_AUTH → pending_auth
  last_seen_counter : Fin 256 → Nat
  blacklisted : Fin 256 → Bool
  parent_addr : uip_ipaddr_t
  has_parent_addr : Bool

/-- A datagram handed to `simple_udp_sendto`. -/
inductive Msg where
  /-- `"AUTH-REQ <nonce>"` on `auth_conn`, by `send_auth_req`. -/
  | auth_req (dest : uip_ipaddr_t) (nonce : Nat)
  /-- `"AUTH-RESP <nonce> <sig>"` on `auth_conn`, by `send_auth_resp`. -/
  | auth_resp (dest : uip_ipaddr_t) (nonce : Nat) (sig : Nat)
  /-- `"<id> <version> <rank> <counter>"` on `dio_conn` to the link-local
  all-nodes group, by `send_dio`. -/
  | dio (node_id : Nat) (version : Nat) (rank : Nat) (counter : Nat)
  /-- The received payload forwarded on `data_conn`, by `handle_data_recv`. -/
  | data (dest : uip_ipaddr_t) (payload : List Nat)
deriving DecidableEq, Repr

/-- Assignment `a[i] = v` to an array. -/
def setAt {n : Nat} {α : Type} (a : Fin n → α) (i : Fin n) (v : α) : Fin n → α :=
  fun j => if j = i then v else a j

/-! ## Helper functions (lines 96-139) -/

/-- `sign_nonce` -/
def sign_nonce (nonce : Nat) : Nat := nonce ^^^ SHARED_KEY

/-- `verify_nonce` -/
def verify_nonce (nonce : Nat) (sig : Nat) : Bool := decide (sig = nonce ^^^ SHARED_KEY)

/-- `extract_node_id_from_addr`: `(addr->u8[14] << 8) | addr->u8[15]`. -/
def extract_node_id_from_addr (addr : uip_ipaddr_t) : Nat :=
  ((addr / 256 % 256) <<< 8) ||| (addr % 256)

/-- `get_sender_index` -/
def get_sender_index (sender_id : Nat) : Fin 256 :=
  ⟨sender_id % 256, Nat.mod_lt _ (by decide)⟩

/-- `find_pending_auth`: the first slot in use whose address is `addr`. -/
def find_pending_auth (pending_auths : Fin MAX_PENDING_AUTH → pending_auth)
    (addr : uip_ipaddr_t) : Option (Fin MAX_PENDING_AUTH) :=
  Fin.find (fun i => (pending_auths i).in_use = true ∧ (pending_auths i).src_addr = addr)

/-- `allocate_pending_auth`: the first free slot, marked in use. -/
def allocate_pending_auth (pending_auths : Fin MAX_PENDING_AUTH → pending_auth) :
    (Fin MAX_PENDING_AUTH → pending_auth) × Option (Fin MAX_PENDING_AUTH) :=
  match Fin.find (fun i => (pending_auths i).in_use = false) with
  | some i => (setAt pending_auths i { pending_auths i with in_use := true }, some i)
  | none => (pending_auths, none)

/-- `free_pending_auth` on a non-null entry. -/
def free_pending_auth (pa : pending_auth) : pending_auth :=
  { pa with timeout_timer := etimer.stopped, in_use := false }

/-- One iteration of the loop of `check_auth_timeouts`; `expired i` is the
value of `etimer_expired(&pending_auths[i].timeout_timer)`. -/
def check_auth_timeouts_body (expired : Fin MAX_PENDING_AUTH → Bool) (s : State)
    (i : Fin MAX_PENDING_AUTH) : State :=
  if (s.pending_auths i).in_use then
    if expired i then
      let idx := get_sender_index (s.pending_auths i).sender_id
      { s with
        blacklisted := setAt s.blacklisted idx true
        last_seen_counter := setAt s.last_seen_counter idx MAX_COUNTER_VALUE
        pending_auths := setAt s.pending_auths i (free_pending_auth (s.pending_auths i)) }
    else s
  else s

/-- `check_auth_timeouts` -/
def check_auth_timeouts (s : State) (expired : Fin MAX_PENDING_AUTH → Bool) : State :=
  (List.finRange MAX_PENDING_AUTH).foldl (check_auth_timeouts_body expired) s

/-! ## `sscanf` on the received payload -/

/-- The C string the handlers scan: at most 127 bytes of the datagram are
copied into `payload[128]`, a NUL is appended, and the string ends at the
first NUL. -/
def c_payload (data : List Nat) : List Nat :=
  (data.take 127).takeWhile (fun c => c != 0)

/-- `isspace` in the C locale. -/
def isspace (c : Nat) : Bool := c == 32 || (decide (9 ≤ c) && decide (c ≤ 13))

/-- `isdigit` -/
def isdigit (c : Nat) : Bool := decide (48 ≤ c) && decide (c ≤ 57)

/-- The digits at the head of the input, accumulated in base ten. -/
def scan_digits : Nat → List Nat → Nat × List Nat
  | acc, [] => (acc, [])
  | acc, c :: cs => if isdigit c then scan_digits (acc * 10 + (c - 48)) cs else (acc, c :: cs)

/-- The conversion `%u` into a `uint32_t`: white space is skipped, then an
optional sign and a non-empty run of digits are read as by `strtoul` and the
value is stored in 32 bits (a value outside the range, which C leaves open,
is reduced modulo 2^32). -/
def scan_u32 (inp : List Nat) : Option (Nat × List Nat) :=
  let inp1 := inp.dropWhile isspace
  let signed : Bool × List Nat :=
    match inp1 with
    | 45 :: r => (true, r)
    | 43 :: r => (false, r)
    | _ => (false, inp1)
  match signed.2 with
  | [] => none
  | c :: _ =>
    if isdigit c then
      let r := scan_digits 0 signed.2
      some (if signed.1 then u32 (4294967296 - u32 r.1) else u32 r.1, r.2)
    else none

/-- The conversion `%Ns`: white space is skipped, then at most `width`
non-space bytes are read; it fails at the end of the string. -/
def scan_s (width : Nat) (inp : List Nat) : Option (List Nat × List Nat) :=
  let inp1 := inp.dropWhile isspace
  let w := (inp1.takeWhile (fun c => !isspace c)).take width
  if w = [] then none else some (w, inp1.drop w.length)

/-- Ordinary characters of a format: each must equal the next input byte. -/
def scan_lit : List Nat → List Nat → Option (List Nat)
  | [], inp => some inp
  | _ :: _, [] => none
  | l :: ls, c :: cs => if l = c then scan_lit ls cs else none

/-- The bytes of a string literal. -/
def bytes (s : String) : List Nat := s.toList.map Char.toNat

/-- `sscanf(payload, "%u %u %u %u", ..) == 4`, with the four values. -/
def sscanf_dio (payload : List Nat) : Option (Nat × Nat × Nat × Nat) :=
  match scan_u32 payload with
  | none => none
  | some (sender_id, r1) =>
    match scan_u32 r1 with
    | none => none
    | some (version, r2) =>
      match scan_u32 r2 with
      | none => none
      | some (rank, r3) =>
        match scan_u32 r3 with
        | none => none
        | some (counter, _) => some (sender_id, version, rank, counter)

/-- What `handle_auth_recv` makes of a payload. -/
inductive auth_scan where
  /-- No tag, an unknown tag, or a tag whose numbers do not scan. -/
  | ignored
  /-- Tag `AUTH-REQ` and `sscanf(payload, "AUTH-REQ %u", ..) == 1`. -/
  | req (nonce : Nat)
  /-- Tag `AUTH-RESP` and `sscanf(payload, "AUTH-RESP %u %u", ..) == 2`. -/
  | resp (nonce : Nat) (sig : Nat)
deriving DecidableEq, Repr

/-- The scanning steps of `handle_auth_recv` (lines 280-290):
`sscanf(payload, "%15s", tag)`, `strcmp` with the two tags, then the `sscanf`
of the whole payload against the format of that tag. -/
def sscanf_auth (payload : List Nat) : auth_scan :=
  match scan_s 15 payload with
  | none => auth_scan.ignored
  | some (tag, _) =>
    if tag = bytes "AUTH-REQ" then
      match scan_lit (bytes "AUTH-REQ") payload with
      | none => auth_scan.ignored
      | some r =>
        match scan_u32 r with
        | none => auth_scan.ignored
        | some (nonce, _) => auth_scan.req nonce
    else if tag = bytes "AUTH-RESP" then
      match scan_lit (bytes "AUTH-RESP") payload with
      | none => auth_scan.ignored
      | some r =>
        match scan_u32 r with
        | none => auth_scan.ignored
        | some (nonce, r1) =>
          match scan_u32 r1 with
          | none => auth_scan.ignored
          | some (sig, _) => auth_scan.resp nonce sig
    else auth_scan.ignored

/-- `sscanf(payload, "%u %u %63s", ..) == 3`, with the two identifiers. -/
def sscanf_data (payload : List Nat) : Option (Nat × Nat) :=
  match scan_u32 payload with
  | none => none
  | some (src_id, r1) =>
    match scan_u32 r1 with
    | none => none
    | some (dst_id, r2) =>
      match scan_s 63 r2 with
      | none => none
      | some _ => some (src_id, dst_id)

/-! ## Senders and handlers (lines 157-345) -/

/-- `send_dio`: increments `my_counter` and multicasts the advertisement. -/
def send_dio (s : State) : State × List Msg :=
  let s1 := { s with my_counter := u32 (s.my_counter + 1) }
  (s1, [Msg.dio s1.my_node_id s1.my_version s1.my_rank s1.my_counter])

/-- `handle_dio_recv` (the callback of `dio_conn`). -/
def handle_dio_recv (s : State) (source_addr : uip_ipaddr_t) (data : List Nat) :
    State × List Msg :=
  match sscanf_dio (c_payload data) with
  | none => (s, [])
  | some (sender_id, version, rank, counter) =>
    if sender_id = s.my_node_id then (s, [])
    else
      let idx := get_sender_index sender_id
      if s.blacklisted idx then (s, [])
      else if s.last_seen_counter idx = 0 ∧ s.blacklisted idx = false then
        match find_pending_auth s.pending_auths source_addr with
        | some i =>
          ({ s with
             pending_auths := setAt s.pending_auths i
               { s.pending_auths i with
                 sender_id := sender_id, version := version, rank := rank, counter := counter } },
           [])
        | none =>
          match allocate_pending_auth s.pending_auths with
          | (_, none) => (s, [])
          | (pool, some i) =>
            ({ s with
               pending_auths := setAt pool i
                 { pool i with
                   src_addr := source_addr, sender_id := sender_id, version := version,
                   rank := rank, counter := counter, nonce := s.next_nonce,
                   timeout_timer := etimer.armed }
               next_nonce := u32 (s.next_nonce + 1) },
             [Msg.auth_req source_addr s.next_nonce])
      else if counter < s.last_seen_counter idx then (s, [])
      else
        let s1 := { s with last_seen_counter := setAt s.last_seen_counter idx counter }
        if s1.is_root = false then
          let candidate_rank := u32 (rank + RANK_INCREMENT)
          if candidate_rank < s1.my_rank then
            ({ s1 with
               my_rank := candidate_rank
               my_parent_id := to_int sender_id
               parent_addr := source_addr
               has_parent_addr := true },
             [])
          else (s1, [])
        else (s1, [])

/-- `handle_auth_recv` (the callback of `auth_conn`). -/
def handle_auth_recv (s : State) (source_addr : uip_ipaddr_t) (data : List Nat) :
    State × List Msg :=
  match sscanf_auth (c_payload data) with
  | auth_scan.ignored => (s, [])
  | auth_scan.req nonce => (s, [Msg.auth_resp source_addr nonce (sign_nonce nonce)])
  | auth_scan.resp nonce sig =>
    match find_pending_auth s.pending_auths source_addr with
    | none => (s, [])
    | some i =>
      let pa := s.pending_auths i
      if pa.nonce = nonce ∧ verify_nonce nonce sig = true then
        let idx := get_sender_index pa.sender_id
        let s1 := { s with last_seen_counter := setAt s.last_seen_counter idx pa.counter }
        let s2 :=
          if s1.is_root = false then
            let candidate_rank := u32 (pa.rank + RANK_INCREMENT)
            if candidate_rank < s1.my_rank then
              { s1 with
                my_rank := candidate_rank
                my_parent_id := to_int pa.sender_id
                parent_addr := source_addr
                has_parent_addr := true }
            else s1
          else s1
        ({ s2 with pending_auths := setAt s2.pending_auths i (free_pending_auth pa) }, [])
      else (s, [])

/-- `handle_data_recv` (the callback of `data_conn`). -/
def handle_data_recv (s : State) (data : List Nat) : State × List Msg :=
  match sscanf_data (c_payload data) with
  | none => (s, [])
  | some (_, dst_id) =>
    if s.is_root = true ∧ dst_id = 0 then (s, [])
    else if s.is_root = false ∧ 0 ≤ s.my_parent_id ∧ s.has_parent_addr = true then
      (s, [Msg.data s.parent_addr (c_payload data)])
    else (s, [])

/-! ## The process (lines 350-420) -/

/-- The state after the start-up part of `rpl_secure_node_process`
(lines 355-379) and the static initialisers. `node_id` is the platform
node id, `global_addr` the result of `uip_ds6_get_global`. -/
def startup (node_id : Nat) (global_addr : Option uip_ipaddr_t) : State :=
  let id0 := node_id
  let id1 :=
    if id0 = 0 then
      let id2 := match global_addr with
        | some a => extract_node_id_from_addr a
        | none => id0
      if id2 = 0 then 1 else id2
    else id0
  let root := decide (id1 = 1)
  { my_node_id := id1
    my_version := 1
    my_rank := if root then 0 else DEFAULT_RANK
    my_counter := 0
    my_parent_id := -1
    is_root := root
    next_nonce := 1
    pending_auths := fun _ =>
      { src_addr := 0, sender_id := 0, version := 0, rank := 0, counter := 0, nonce := 0,
        timeout_timer := etimer.zeroed, in_use := false }
    last_seen_counter := fun _ => 0
    blacklisted := fun _ => false
    parent_addr := 0
    has_parent_addr := false }

/-- What wakes the node: a datagram on one of its three ports, the timeout
check the process makes at every wake-up, or the expiry of its own
advertisement timer. -/
inductive Event where
  /-- A datagram on `DIO_PORT`. -/
  | dio (source_addr : uip_ipaddr_t) (data : List Nat)
  /-- A datagram on `AUTH_PORT`. -/
  | auth (source_addr : uip_ipaddr_t) (data : List Nat)
  /-- A datagram on `DATA_PORT`. -/
  | data (source_addr : uip_ipaddr_t) (data : List Nat)
  /-- `check_auth_timeouts()`; `expired i` is what `etimer_expired` answers
  for the timer of slot `i`. -/
  | timeouts (expired : Fin MAX_PENDING_AUTH → Bool)
  /-- `send_dio()` on expiry of `dio_timer`. -/
  | dio_timer

/-- The effect of one event. -/
def step (s : State) : Event → State × List Msg
  | Event.dio source_addr data => handle_dio_recv s source_addr data
  | Event.auth source_addr data => handle_auth_recv s source_addr data
  | Event.data _ data => handle_data_recv s data
  | Event.timeouts expired => (check_auth_timeouts s expired, [])
  | Event.dio_timer => send_dio s

/-- The state after a sequence of events. -/
def run (s : State) : List Event → State
  | [] => s
  | e :: es => run (step s e).1 es

/-- The states the node can be in: those a sequence of events leads to from
a start-up state. -/
def Reachable (s : State) : Prop :=
  ∃ node_id global_addr es, s = run (startup node_id global_addr) es

/-! ## Scenario states -/

/-- The link-local address of node B (id 2). -/
def addrB : uip_ipaddr_t := 0xfe800000000000000000000000000002

/-- A second link-local address. -/
def addrC : uip_ipaddr_t := 0xfe800000000000000000000000000004

/-- Node A (id 3) after it has challenged B on `"2 1 500 5"`, verified the
response, and accepted B's advertisements with counters 6, 7 and 8. -/
def scenarioB : State :=
  run (startup 3 none)
    [Event.dio addrB (bytes "2 1 500 5"),
     Event.auth addrB (bytes "AUTH-RESP 1 2779096484"),
     Event.dio addrB (bytes "2 1 500 6"),
     Event.dio addrB (bytes "2 1 500 7"),
     Event.dio addrB (bytes "2 1 500 8")]

/-- Node A (id 3) at start-up after the first advertisement `"2 1 500 1"` of
B: slot 0 holds the pending challenge with nonce 1. -/
def pendingB : State :=
  run (startup 3 none) [Event.dio addrB (bytes "2 1 500 1")]

/-- Node A (id 3) after two addresses have claimed sender 2 at first contact,
with counters 100 and 5, and the first of them has answered its challenge. -/
def twoChallenges : State :=
  run (startup 3 none)
    [Event.dio addrB (bytes "2 1 500 100"),
     Event.dio addrC (bytes "2 1 500 5"),
     Event.auth addrB (bytes "AUTH-RESP 1 2779096484")]

/-! ## Wire format of the datagrams sent -/

/-- The decimal digits of `n`, most significant first, at most `fuel` of
them. -/
def dec_fuel : Nat → Nat → List Nat
  | 0, _ => []
  | fuel + 1, n => if n < 10 then [n + 48] else dec_fuel fuel (n / 10) ++ [n % 10 + 48]

/-- What `snprintf` writes for `"%" PRIu32`: the decimal digits of a
`uint32_t`, which has at most ten of them. -/
def dec (n : Nat) : List Nat := dec_fuel 10 (u32 n)

/-- The payload handed to `simple_udp_sendto`: the text `snprintf` leaves in
`msg[64]` (`send_auth_req`, `send_auth_resp`) or `payload[128]` (`send_dio`),
or the forwarded string (`handle_data_recv`). -/
def wire : Msg → List Nat
  | Msg.auth_req _ nonce => (bytes "AUTH-REQ " ++ dec nonce).take 63
  | Msg.auth_resp _ nonce sig => (bytes "AUTH-RESP " ++ dec nonce ++ 32 :: dec sig).take 63
  | Msg.dio node_id version rank counter =>
    (dec node_id ++ 32 :: dec version ++ 32 :: dec rank ++ 32 :: dec counter).take 127
  | Msg.data _ payload => payload

/-- The nonces of the challenges (AUTH-REQ) among the datagrams sent. -/
def req_nonces : List Msg → List Nat
  | [] => []
  | Msg.auth_req _ nonce :: ms => nonce :: req_nonces ms
  | _ :: ms => req_nonces ms

/-- The nonces of the challenges issued along a sequence of events, in the
order of issue. -/
def issued_nonces (s : State) : List Event → List Nat
  | [] => []
  | e :: es => req_nonces (step s e).2 ++ issued_nonces (step s e).1 es

/-! ## The attacker (`NODE_IS_ATTACKER == 1`, lines 428-493) -/

/-- The file-scope variables of the attacker. `captured_payload` holds the
bytes of `captured_payload[256]` in front of the terminating NUL that
`handle_dio_sniff` writes. -/
structure Attacker where
  captured_payload : List Nat
  has_captured : Bool
  replay_timer : etimer
deriving DecidableEq, Repr

/-- The attacker after the start-up part of `rpl_attacker_process`. -/
def attacker_startup : Attacker :=
  { captured_payload := [], has_captured := false, replay_timer := etimer.zeroed }

/-- `handle_dio_sniff` (the callback of the attacker's `dio_conn`). -/
def handle_dio_sniff (a : Attacker) (data : List Nat) : Attacker :=
  if a.has_captured = false ∧ 0 < data.length then
    let len := if data.length ≥ 256 then 255 else data.length
    { a with
      captured_payload := data.take len
      has_captured := true
      replay_timer := etimer.armed }
  else a

/-- `replay_captured`: the datagrams it sends and the attacker afterwards.
`strlen` and the test of `captured_payload[0]` read the buffer as a C
string, which ends at the first NUL. -/
def replay_captured (a : Attacker) : Attacker × List (List Nat) :=
  if a.has_captured = false ∨ a.captured_payload.head? = none ∨
      a.captured_payload.head? = some 0 then (a, [])
  else
    ({ a with replay_timer := etimer.armed },
     [a.captured_payload.takeWhile (fun c => c != 0)])

/-- The attacker after sniffing a sequence of datagrams. -/
def sniff_all (a : Attacker) : List (List Nat) → Attacker
  | [] => a
  | d :: ds => sniff_all (handle_dio_sniff a d) ds

/-- Node A (id 3) after two addresses have claimed sender 2 at first contact,
the challenge of the first has timed out, and the second has answered its
challenge. -/
def blacklistedThenVerified : State :=
  run (startup 3 none)
    [Event.dio addrB (bytes "2 1 500 1"),
     Event.dio addrC (bytes "2 1 500 1"),
     Event.timeouts (fun i => decide (i = 0)),
     Event.auth addrC (bytes "AUTH-RESP 2 2779096487")]

/-- No two slots in use hold the same address. -/
def pending_addresses_unique (s : State) : Prop :=
  ∀ i j, (s.pending_auths i).in_use = true → (s.pending_auths j).in_use = true →
    (s.pending_auths i).src_addr = (s.pending_auths j).src_addr → i = j

/-- Node A (id 3) after first-contact advertisements of sender 2 from ten
different addresses: all ten slots are in use. -/
def fullPool : State :=
  run (startup 3 none)
    ((List.range 10).map (fun k => Event.dio (addrB + 16 * (k + 1)) (bytes "2 1 500 1")))

/-- Node A (id 3) after two addresses have claimed sender 2 at first contact
and the challenge of the first has timed out: index 2 is blacklisted while the
second challenge is still pending in slot 1. -/
def blacklistedPending : State :=
  run (startup 3 none)
    [Event.dio addrB (bytes "2 1 500 1"),
     Event.dio addrC (bytes "2 1 500 1"),
     Event.timeouts (fun i => decide (i = 0))]

/-! ## Payload shapes -/

/-- The white-space separated tokens of a payload; `fuel` bounds their
number. -/
def tokens_fuel : Nat → List Nat → List (List Nat)
  | 0, _ => []
  | fuel + 1, p =>
    let q := p.dropWhile isspace
    if q = [] then []
    else q.takeWhile (fun c => !isspace c) :: tokens_fuel fuel (q.dropWhile (fun c => !isspace c))

/-- The white-space separated tokens of a payload. -/
def tokens (p : List Nat) : List (List Nat) := tokens_fuel p.length p

/-- An unsigned decimal integer: a non-empty run of digits. -/
def is_unsigned_decimal (t : List Nat) : Bool := !t.isEmpty && t.all isdigit

/-- The advertisement format of the specification: exactly four
white-space separated unsigned decimal integers. -/
def four_unsigned_integers (p : List Nat) : Bool :=
  match tokens p with
  | [a, b, c, d] =>
    is_unsigned_decimal a && is_unsigned_decimal b && is_unsigned_decimal c &&
      is_unsigned_decimal d
  | _ => false

/-- The challenge and response formats of the specification:
`AUTH-REQ <nonce>` or `AUTH-RESP <nonce> <signature>` with unsigned decimal
integers. -/
def auth_req_or_resp (p : List Nat) : Bool :=
  match tokens p with
  | [t, n] => decide (t = bytes "AUTH-REQ") && is_unsigned_decimal n
  | [t, n, sg] =>
    decide (t = bytes "AUTH-RESP") && is_unsigned_decimal n && is_unsigned_decimal sg
  | _ => false

/-- The payload begins with `k` integers as `%u` reads them: each after
optional white space, with an optional sign and at least one digit; what
follows the last digit is not looked at. -/
def begins_with_integers : Nat → List Nat → Bool
  | 0, _ => true
  | k + 1, inp =>
    let inp1 := inp.dropWhile isspace
    let signed : Bool × List Nat :=
      match inp1 with
      | 45 :: r => (true, r)
      | 43 :: r => (false, r)
      | _ => (false, inp1)
    match signed.2 with
    | [] => false
    | c :: _ => isdigit c && begins_with_integers k (signed.2.dropWhile isdigit)

/-- The payload begins as `handle_auth_recv` needs it: its first token (at
most 15 bytes of it) is `AUTH-REQ` or `AUTH-RESP`, the payload starts with
that tag without leading white space, and one integer (for `AUTH-REQ`) or two
(for `AUTH-RESP`) follow as `%u` reads them. -/
def begins_with_auth (p : List Nat) : Bool :=
  match scan_s 15 p with
  | none => false
  | some (tag, _) =>
    if tag = bytes "AUTH-REQ" then
      match scan_lit (bytes "AUTH-REQ") p with
      | none => false
      | some r => begins_with_integers 1 r
    else if tag = bytes "AUTH-RESP" then
      match scan_lit (bytes "AUTH-RESP") p with
      | none => false
      | some r => begins_with_integers 2 r
    else false

/-- One round of first contact: sender 2 advertises with counter 0 from B
and B answers the challenge `nonce` as `send_auth_resp` does. -/
def challenge_round (nonce : Nat) : List Event :=
  [Event.dio addrB (bytes "2 1 500 0"),
   Event.auth addrB (wire (Msg.auth_resp addrB nonce (sign_nonce nonce)))]

/-- `n` rounds of first contact in a row; the first answers challenge
`c mod 2^32`, the next `(c + 1) mod 2^32`, and so on. -/
def challenge_rounds : Nat → Nat → List Event
  | _, 0 => []
  | c, n + 1 => challenge_round (u32 c) ++ challenge_rounds (c + 1) n

/-- Node 3 with no slot in use, sender 2 neither trusted nor blacklisted, and
`next_nonce = c mod 2^32`. -/
def idle_for_sender_2 (s : State) (c : Nat) : Prop :=
  s.my_node_id = 3 ∧ (∀ i, (s.pending_auths i).in_use = false) ∧
  s.last_seen_counter (get_sender_index 2) = 0 ∧
  s.blacklisted (get_sender_index 2) = false ∧ s.next_nonce = u32 c

/-- Node A (id 3) at start-up after the first advertisement `"258 1 500 1"`:
slot 0 holds the pending challenge of sender 258. -/
def pending258 : State :=
  run (startup 3 none) [Event.dio addrB (bytes "258 1 500 1")]

/-- Node A (id 3) at start-up after the first advertisement
`"2 1 4294967295 1"` of B: slot 0 holds the pending challenge (nonce 1) with
claimed rank `UINT32_MAX`. -/
def pendingMaxRank : State :=
  run (startup 3 none) [Event.dio addrB (bytes "2 1 4294967295 1")]

/-! ## Lemmas on the helpers, the handlers and the timeout loop -/

/-- The slot `find_pending_auth` returns is the lowest one in use for the
address. -/
theorem find_pending_auth_eq_some_iff (pool : Fin MAX_PENDING_AUTH → pending_auth)
    (addr : uip_ipaddr_t) (i : Fin MAX_PENDING_AUTH) :
    find_pending_auth pool addr = some i ↔
      ((pool i).in_use = true ∧ (pool i).src_addr = addr) ∧
      ∀ j, (pool j).in_use = true ∧ (pool j).src_addr = addr → i ≤ j := by
  unfold find_pending_auth
  exact Fin.find_eq_some_iff

/-- `find_pending_auth` returns `NULL` exactly when no slot in use has the
address. -/
theorem find_pending_auth_eq_none_iff (pool : Fin MAX_PENDING_AUTH → pending_auth)
    (addr : uip_ipaddr_t) :
    find_pending_auth pool addr = none ↔
      ∀ i, ¬ ((pool i).in_use = true ∧ (pool i).src_addr = addr) := by
  unfold find_pending_auth
  exact Fin.find_eq_none_iff

/-- `handle_dio_recv` never writes `blacklisted`. -/
theorem handle_dio_recv_blacklisted_eq (s : State) (source_addr : uip_ipaddr_t)
    (data : List Nat) :
    (handle_dio_recv s source_addr data).1.blacklisted = s.blacklisted := by
  simp only [handle_dio_recv]
  repeat' split
  all_goals rfl

/-- `handle_auth_recv` never writes `blacklisted`. -/
theorem handle_auth_recv_blacklisted_eq (s : State) (source_addr : uip_ipaddr_t)
    (data : List Nat) :
    (handle_auth_recv s source_addr data).1.blacklisted = s.blacklisted := by
  simp only [handle_auth_recv]
  repeat' split
  all_goals rfl

/-- `handle_data_recv` writes no node variable. -/
theorem handle_data_recv_state (s : State) (data : List Nat) :
    (handle_data_recv s data).1 = s := by
  simp only [handle_data_recv]
  repeat' split
  all_goals rfl

/-- `handle_dio_recv` never raises `my_rank`, and changes the parent only together
with a strictly lower rank. -/
theorem handle_dio_recv_rank (s : State) (source_addr : uip_ipaddr_t) (data : List Nat) :
    (handle_dio_recv s source_addr data).1.my_rank ≤ s.my_rank ∧
    ((handle_dio_recv s source_addr data).1.my_parent_id ≠ s.my_parent_id ∨
     (handle_dio_recv s source_addr data).1.parent_addr ≠ s.parent_addr ∨
     (handle_dio_recv s source_addr data).1.has_parent_addr ≠ s.has_parent_addr →
      (handle_dio_recv s source_addr data).1.my_rank < s.my_rank) := by
  simp only [handle_dio_recv]
  repeat' split
  all_goals first
    | (constructor
       · exact Nat.le_refl _
       · intro h; simp at h)
    | (constructor
       · exact Nat.le_of_lt (by assumption)
       · intro _; assumption)

/-- `handle_auth_recv` never raises `my_rank`, and changes the parent only together
with a strictly lower rank. -/
theorem handle_auth_recv_rank (s : State) (source_addr : uip_ipaddr_t) (data : List Nat) :
    (handle_auth_recv s source_addr data).1.my_rank ≤ s.my_rank ∧
    ((handle_auth_recv s source_addr data).1.my_parent_id ≠ s.my_parent_id ∨
     (handle_auth_recv s source_addr data).1.parent_addr ≠ s.parent_addr ∨
     (handle_auth_recv s source_addr data).1.has_parent_addr ≠ s.has_parent_addr →
      (handle_auth_recv s source_addr data).1.my_rank < s.my_rank) := by
  simp only [handle_auth_recv]
  repeat' split
  all_goals first
    | (constructor
       · exact Nat.le_refl _
       · intro h; simp at h)
    | (constructor
       · exact Nat.le_of_lt (by assumption)
       · intro _; assumption)

/-- An advertisement of a blacklisted sender is dropped. -/
theorem handle_dio_recv_blacklisted_drop (s : State) (source_addr : uip_ipaddr_t)
    (data : List Nat) (sender_id version rank counter : Nat)
    (hscan : sscanf_dio (c_payload data) = some (sender_id, version, rank, counter))
    (hbl : s.blacklisted (get_sender_index sender_id) = true) :
    handle_dio_recv s source_addr data = (s, []) := by
  simp only [handle_dio_recv, hscan]
  by_cases hself : sender_id = s.my_node_id
  · simp [hself]
  · simp [hself, hbl]

/-- The pending pool after one iteration of the timeout loop. -/
theorem check_auth_timeouts_body_pending (expired : Fin MAX_PENDING_AUTH → Bool) (s : State)
    (i j : Fin MAX_PENDING_AUTH) :
    (check_auth_timeouts_body expired s i).pending_auths j =
      if j = i ∧ (s.pending_auths i).in_use = true ∧ expired i = true
      then free_pending_auth (s.pending_auths i) else s.pending_auths j := by
  unfold check_auth_timeouts_body
  by_cases h1 : (s.pending_auths i).in_use = true <;> by_cases h2 : expired i = true <;>
    by_cases h3 : j = i <;> simp [h1, h2, h3, setAt]

/-- The two tables after one iteration of the timeout loop. -/
theorem check_auth_timeouts_body_tables (expired : Fin MAX_PENDING_AUTH → Bool) (s : State)
    (i : Fin MAX_PENDING_AUTH) (k : Fin 256) :
    ((s.pending_auths i).in_use = true ∧ expired i = true ∧
        get_sender_index (s.pending_auths i).sender_id = k →
      (check_auth_timeouts_body expired s i).blacklisted k = true ∧
      (check_auth_timeouts_body expired s i).last_seen_counter k = MAX_COUNTER_VALUE) ∧
    (¬ ((s.pending_auths i).in_use = true ∧ expired i = true ∧
        get_sender_index (s.pending_auths i).sender_id = k) →
      (check_auth_timeouts_body expired s i).blacklisted k = s.blacklisted k ∧
      (check_auth_timeouts_body expired s i).last_seen_counter k = s.last_seen_counter k) := by
  unfold check_auth_timeouts_body
  by_cases h1 : (s.pending_auths i).in_use = true <;> by_cases h2 : expired i = true <;>
    by_cases h3 : get_sender_index (s.pending_auths i).sender_id = k <;>
    simp [h1, h2, h3, setAt]
  exact ⟨fun h => absurd h.symm h3, fun h => absurd h.symm h3⟩

/-- An iteration of the timeout loop touches only the two tables and the
pending pool. -/
theorem check_auth_timeouts_body_frame (expired : Fin MAX_PENDING_AUTH → Bool) (s : State)
    (i : Fin MAX_PENDING_AUTH) :
    check_auth_timeouts_body expired s i =
      { s with
        blacklisted := (check_auth_timeouts_body expired s i).blacklisted
        last_seen_counter := (check_auth_timeouts_body expired s i).last_seen_counter
        pending_auths := (check_auth_timeouts_body expired s i).pending_auths } := by
  unfold check_auth_timeouts_body
  repeat' split
  all_goals rfl

/-- The timeout loop over any list of slots touches only the two tables and
the pending pool. -/
theorem check_auth_timeouts_loop_frame (expired : Fin MAX_PENDING_AUTH → Bool)
    (l : List (Fin MAX_PENDING_AUTH)) (s : State) :
    l.foldl (check_auth_timeouts_body expired) s =
      { s with
        blacklisted := (l.foldl (check_auth_timeouts_body expired) s).blacklisted
        last_seen_counter := (l.foldl (check_auth_timeouts_body expired) s).last_seen_counter
        pending_auths := (l.foldl (check_auth_timeouts_body expired) s).pending_auths } := by
  induction l generalizing s with
  | nil => rfl
  | cons i l ih =>
    simp only [List.foldl_cons]
    have h1 := ih (check_auth_timeouts_body expired s i)
    have h2 := check_auth_timeouts_body_frame expired s i
    rw [h1]
    rw [h2]

/-- The pending pool after the timeout loop over a list of distinct slots. -/
theorem check_auth_timeouts_loop_pending (expired : Fin MAX_PENDING_AUTH → Bool)
    (l : List (Fin MAX_PENDING_AUTH)) (hl : l.Nodup) (s : State) (j : Fin MAX_PENDING_AUTH) :
    (l.foldl (check_auth_timeouts_body expired) s).pending_auths j =
      if j ∈ l ∧ (s.pending_auths j).in_use = true ∧ expired j = true
      then free_pending_auth (s.pending_auths j) else s.pending_auths j := by
  induction l generalizing s with
  | nil => simp
  | cons i l ih =>
    have hi : i ∉ l := (List.nodup_cons.1 hl).1
    simp only [List.foldl_cons]
    rw [ih (List.nodup_cons.1 hl).2, check_auth_timeouts_body_pending]
    by_cases hji : j = i
    · subst hji
      simp [hi]
    · simp [hji]

/-- The two tables after the timeout loop over a list of distinct slots. -/
theorem check_auth_timeouts_loop_tables (expired : Fin MAX_PENDING_AUTH → Bool)
    (l : List (Fin MAX_PENDING_AUTH)) (hl : l.Nodup) (s : State) (k : Fin 256) :
    ((∃ j, j ∈ l ∧ (s.pending_auths j).in_use = true ∧ expired j = true ∧
        get_sender_index (s.pending_auths j).sender_id = k) →
      (l.foldl (check_auth_timeouts_body expired) s).blacklisted k = true ∧
      (l.foldl (check_auth_timeouts_body expired) s).last_seen_counter k = MAX_COUNTER_VALUE) ∧
    ((∀ j, j ∈ l → (s.pending_auths j).in_use = true → expired j = true →
        get_sender_index (s.pending_auths j).sender_id ≠ k) →
      (l.foldl (check_auth_timeouts_body expired) s).blacklisted k = s.blacklisted k ∧
      (l.foldl (check_auth_timeouts_body expired) s).last_seen_counter k =
        s.last_seen_counter k) := by
  induction l generalizing s with
  | nil =>
    constructor
    · rintro ⟨j, hj, _⟩
      simp at hj
    · intro _
      simp
  | cons i l ih =>
    have hi : i ∉ l := (List.nodup_cons.1 hl).1
    have hsame : ∀ j, j ∈ l →
        (check_auth_timeouts_body expired s i).pending_auths j = s.pending_auths j := by
      intro j hj
      have hji : j ≠ i := fun h => hi (h ▸ hj)
      rw [check_auth_timeouts_body_pending]
      simp [hji]
    have ih1 := ih (List.nodup_cons.1 hl).2 (check_auth_timeouts_body expired s i)
    have hb := check_auth_timeouts_body_tables expired s i k
    simp only [List.foldl_cons]
    by_cases hrest : ∃ j, j ∈ l ∧ (s.pending_auths j).in_use = true ∧ expired j = true ∧
        get_sender_index (s.pending_auths j).sender_id = k
    · obtain ⟨j, hj, hju, hje, hjk⟩ := hrest
      constructor
      · intro _
        exact ih1.1 ⟨j, hj, by rw [hsame j hj]; exact hju, hje, by rw [hsame j hj]; exact hjk⟩
      · intro hall
        exact absurd hjk (hall j (List.mem_cons_of_mem _ hj) hju hje)
    · have hmiss : ∀ j, j ∈ l →
          ((check_auth_timeouts_body expired s i).pending_auths j).in_use = true →
          expired j = true →
          get_sender_index ((check_auth_timeouts_body expired s i).pending_auths j).sender_id ≠ k := by
        intro j hj hju hje hjk
        rw [hsame j hj] at hju hjk
        exact hrest ⟨j, hj, hju, hje, hjk⟩
      have h2 := ih1.2 hmiss
      constructor
      · rintro ⟨j, hj, hju, hje, hjk⟩
        rcases List.mem_cons.1 hj with hji | hjl
        · subst hji
          have h3 := hb.1 ⟨hju, hje, hjk⟩
          rw [h2.1, h2.2]
          exact h3
        · exact absurd ⟨j, hjl, hju, hje, hjk⟩ hrest
      · intro hall
        have h3 := hb.2 (fun h => hall i (List.mem_cons_self _ _) h.1 h.2.1 h.2.2)
        rw [h2.1, h2.2]
        exact h3

/-- `check_auth_timeouts` touches only the two tables and the pending pool. -/
theorem check_auth_timeouts_frame (s : State) (expired : Fin MAX_PENDING_AUTH → Bool) :
    check_auth_timeouts s expired =
      { s with
        blacklisted := (check_auth_timeouts s expired).blacklisted
        last_seen_counter := (check_auth_timeouts s expired).last_seen_counter
        pending_auths := (check_auth_timeouts s expired).pending_auths } :=
  check_auth_timeouts_loop_frame expired (List.finRange MAX_PENDING_AUTH) s

/-- `check_auth_timeouts` blacklists the sender of an entry in use whose timer
has expired. -/
theorem check_auth_timeouts_expired_blacklisted (s : State)
    (expired : Fin MAX_PENDING_AUTH → Bool) (i : Fin MAX_PENDING_AUTH)
    (hin : (s.pending_auths i).in_use = true) (hexp : expired i = true) :
    (check_auth_timeouts s expired).blacklisted
      (get_sender_index (s.pending_auths i).sender_id) = true :=
  ((check_auth_timeouts_loop_tables expired (List.finRange MAX_PENDING_AUTH)
    (List.nodup_finRange _) s _).1 ⟨i, List.mem_finRange i, hin, hexp, rfl⟩).1

/-- `check_auth_timeouts` never clears a blacklist entry. -/
theorem check_auth_timeouts_blacklisted_mono (s : State)
    (expired : Fin MAX_PENDING_AUTH → Bool) (k : Fin 256) (hk : s.blacklisted k = true) :
    (check_auth_timeouts s expired).blacklisted k = true := by
  unfold check_auth_timeouts
  have h := check_auth_timeouts_loop_tables expired (List.finRange MAX_PENDING_AUTH)
    (List.nodup_finRange _) s k
  by_cases hex : ∃ j, j ∈ List.finRange MAX_PENDING_AUTH ∧ (s.pending_auths j).in_use = true ∧
      expired j = true ∧ get_sender_index (s.pending_auths j).sender_id = k
  · exact (h.1 hex).1
  · have h2 := h.2 (fun j hj hu he hjk => hex ⟨j, hj, hu, he, hjk⟩)
    rw [h2.1]
    exact hk

/-- No event clears a blacklist entry. -/
theorem step_blacklisted_mono (s : State) (e : Event) (k : Fin 256)
    (hk : s.blacklisted k = true) : (step s e).1.blacklisted k = true := by
  cases e with
  | dio a d => simp only [step]; rw [handle_dio_recv_blacklisted_eq]; exact hk
  | auth a d => simp only [step]; rw [handle_auth_recv_blacklisted_eq]; exact hk
  | data a d => simp only [step]; rw [handle_data_recv_state]; exact hk
  | timeouts expired => exact check_auth_timeouts_blacklisted_mono s expired k hk
  | dio_timer => exact hk

/-- No sequence of events clears a blacklist entry. -/
theorem run_blacklisted_mono (es : List Event) (s : State) (k : Fin 256)
    (hk : s.blacklisted k = true) : (run s es).blacklisted k = true := by
  induction es generalizing s with
  | nil => exact hk
  | cons e es ih => exact ih (step s e).1 (step_blacklisted_mono s e k hk)

/-- A value within the 32-bit range is not changed by the conversion. -/
theorem u32_of_le (n : Nat) (h : n ≤ UINT32_MAX) : u32 n = n := by
  unfold u32 UINT32_MAX at *
  omega

/-- While `rank + RANK_INCREMENT` stays within 32 bits, the parent rule of
`handle_dio_recv` on an accepted advertisement is the exact one: the node
changes rank and parent exactly when `rank + RANK_INCREMENT < my_rank`, and
then takes `rank + RANK_INCREMENT` as its rank. -/
theorem handle_dio_recv_parent_rule_in_range (s : State) (source_addr : uip_ipaddr_t)
    (data : List Nat) (sender_id version rank counter : Nat)
    (hscan : sscanf_dio (c_payload data) = some (sender_id, version, rank, counter))
    (hself : sender_id ≠ s.my_node_id)
    (hnotbl : s.blacklisted (get_sender_index sender_id) = false)
    (htrusted : s.last_seen_counter (get_sender_index sender_id) ≠ 0)
    (hfresh : s.last_seen_counter (get_sender_index sender_id) ≤ counter)
    (hroot : s.is_root = false)
    (hrange : rank + RANK_INCREMENT ≤ UINT32_MAX) :
    (rank + RANK_INCREMENT < s.my_rank →
      (handle_dio_recv s source_addr data).1.my_rank = rank + RANK_INCREMENT ∧
      (handle_dio_recv s source_addr data).1.my_parent_id = to_int sender_id ∧
      (handle_dio_recv s source_addr data).1.parent_addr = source_addr ∧
      (handle_dio_recv s source_addr data).1.has_parent_addr = true) ∧
    (¬ rank + RANK_INCREMENT < s.my_rank →
      (handle_dio_recv s source_addr data).1.my_rank = s.my_rank ∧
      (handle_dio_recv s source_addr data).1.my_parent_id = s.my_parent_id ∧
      (handle_dio_recv s source_addr data).1.parent_addr = s.parent_addr ∧
      (handle_dio_recv s source_addr data).1.has_parent_addr = s.has_parent_addr) := by
  have hu := u32_of_le _ hrange
  have hnlt : ¬ counter < s.last_seen_counter (get_sender_index sender_id) := by omega
  simp only [handle_dio_recv, hscan]
  constructor
  · intro hlt
    simp [hself, hnotbl, htrusted, hnlt, hroot, hu, hlt]
  · intro hge
    simp [hself, hnotbl, htrusted, hnlt, hroot, hu, hge]

/-! ## Properties of the specification -/

/-- C1: an advertisement whose counter is strictly below
`last_seen_counter[sender_id % 256]` is discarded by `handle_dio_recv`: the
whole node state is returned unchanged and no datagram is sent. -/
theorem handle_dio_recv_discards_older (s : State) (source_addr : uip_ipaddr_t)
    (data : List Nat) (sender_id version rank counter : Nat)
    (hscan : sscanf_dio (c_payload data) = some (sender_id, version, rank, counter))
    (hold : counter < s.last_seen_counter (get_sender_index sender_id)) :
    handle_dio_recv s source_addr data = (s, []) := by
  have hne : s.last_seen_counter (get_sender_index sender_id) ≠ 0 := by omega
  simp only [handle_dio_recv, hscan]
  by_cases hself : sender_id = s.my_node_id
  · simp [hself]
  · by_cases hbl : s.blacklisted (get_sender_index sender_id) = true
    · simp [hself, hbl]
    · simp [hself, hbl, hne, hold]

/-- C1, scenario B: with `last_seen_counter[2] = 8` the replayed
`"2 1 500 5"` is discarded. -/
theorem handle_dio_recv_discards_older_witness :
    scenarioB.last_seen_counter 2 = 8 ∧
    handle_dio_recv scenarioB addrC (bytes "2 1 500 5") = (scenarioB, []) :=
  ⟨by decide,
   handle_dio_recv_discards_older scenarioB addrC (bytes "2 1 500 5") 2 1 500 5
     (by decide) (by decide)⟩

/-- C2 fails on the code: node 3 challenges two addresses that both claim
sender 2, with counters 100 and 5. After the first response
`last_seen_counter[2]` is 100; the second response lowers it to 5. -/
theorem last_seen_counter_lowered_by_auth :
    Reachable twoChallenges ∧
    twoChallenges.last_seen_counter 2 = 100 ∧
    (step twoChallenges (Event.auth addrC (bytes "AUTH-RESP 2 2779096487"))).1.last_seen_counter 2
      = 5 :=
  ⟨⟨3, none, _, rfl⟩, by decide, by decide⟩

/-- C3, as stated, fails: in scenario B (`last_seen_counter[2] = 8`, sender 2
trusted, `my_rank = 510`) the advertisement `"2 1 100 8"`, whose counter equals
the highest accepted one, is accepted and lowers `my_rank` to 110. -/
theorem handle_dio_recv_equal_counter_accepted :
    ¬ ∀ (s : State) (source_addr : uip_ipaddr_t) (data : List Nat)
        (sender_id version rank counter : Nat),
        sscanf_dio (c_payload data) = some (sender_id, version, rank, counter) →
        s.last_seen_counter (get_sender_index sender_id) ≠ 0 →
        s.blacklisted (get_sender_index sender_id) = false →
        counter ≤ s.last_seen_counter (get_sender_index sender_id) →
        (handle_dio_recv s source_addr data).1.my_rank = s.my_rank ∧
        (handle_dio_recv s source_addr data).1.my_parent_id = s.my_parent_id ∧
        (handle_dio_recv s source_addr data).1.parent_addr = s.parent_addr ∧
        (handle_dio_recv s source_addr data).1.has_parent_addr = s.has_parent_addr := by
  intro h
  have h1 := (h scenarioB addrC (bytes "2 1 100 8") 2 1 100 8
    (by decide) (by decide) (by decide) (by decide)).1
  revert h1
  decide

/-- C3, amended: for a trusted sender (`last_seen_counter` non-zero, not
blacklisted) an advertisement with a counter strictly below the highest
accepted one leaves `my_rank`, `my_parent_id` and the parent address
unchanged; one with a counter equal to it is accepted: on a non-root node,
when it does not come from the node itself and `rank + RANK_INCREMENT` is
below `my_rank`, the node takes that rank and that sender as parent. -/
theorem handle_dio_recv_trusted_sender (s : State) (source_addr : uip_ipaddr_t)
    (data : List Nat) (sender_id version rank counter : Nat)
    (hscan : sscanf_dio (c_payload data) = some (sender_id, version, rank, counter))
    (htrusted : s.last_seen_counter (get_sender_index sender_id) ≠ 0)
    (hnotbl : s.blacklisted (get_sender_index sender_id) = false) :
    (counter < s.last_seen_counter (get_sender_index sender_id) →
      (handle_dio_recv s source_addr data).1.my_rank = s.my_rank ∧
      (handle_dio_recv s source_addr data).1.my_parent_id = s.my_parent_id ∧
      (handle_dio_recv s source_addr data).1.parent_addr = s.parent_addr ∧
      (handle_dio_recv s source_addr data).1.has_parent_addr = s.has_parent_addr) ∧
    (counter = s.last_seen_counter (get_sender_index sender_id) →
      sender_id ≠ s.my_node_id → s.is_root = false →
      rank + RANK_INCREMENT < s.my_rank → s.my_rank ≤ UINT32_MAX →
      (handle_dio_recv s source_addr data).1.my_rank = rank + RANK_INCREMENT ∧
      (handle_dio_recv s source_addr data).1.my_parent_id = to_int sender_id ∧
      (handle_dio_recv s source_addr data).1.parent_addr = source_addr ∧
      (handle_dio_recv s source_addr data).1.has_parent_addr = true) := by
  constructor
  · intro hlt
    simp only [handle_dio_recv, hscan]
    by_cases hself : sender_id = s.my_node_id
    · simp [hself]
    · simp [hself, hnotbl, htrusted, hlt]
  · intro heq hself hroot hcand hmax
    have hu : u32 (rank + RANK_INCREMENT) = rank + RANK_INCREMENT := by
      unfold u32 UINT32_MAX at *
      omega
    simp only [handle_dio_recv, hscan]
    simp [hself, hnotbl, htrusted, heq, hroot, hu, hcand]

/-- C3, amended, in scenario B: `"2 1 100 5"` (counter 5 < 8) changes neither
rank nor parent, while `"2 1 100 8"` (counter 8 = 8) makes sender 2 the parent
at rank 110. -/
theorem handle_dio_recv_trusted_sender_witness :
    (handle_dio_recv scenarioB addrC (bytes "2 1 100 5")).1.my_rank = scenarioB.my_rank ∧
    (handle_dio_recv scenarioB addrC (bytes "2 1 100 8")).1.my_rank = 100 + RANK_INCREMENT :=
  ⟨((handle_dio_recv_trusted_sender scenarioB addrC (bytes "2 1 100 5") 2 1 100 5
      (by decide) (by decide) (by decide)).1 (by decide)).1,
   ((handle_dio_recv_trusted_sender scenarioB addrC (bytes "2 1 100 8") 2 1 100 8
      (by decide) (by decide) (by decide)).2 (by decide) (by decide) (by decide)
      (by decide) (by decide)).1⟩

/-- C4: for a sender without trust record (`last_seen_counter` zero, not
blacklisted) `handle_dio_recv` changes nothing but the pending pool and
`next_nonce` (so `my_rank`, `my_parent_id`, the parent address,
`last_seen_counter` and `blacklisted` keep their values), and it sends
nothing or a single AUTH-REQ, carrying the old `next_nonce`, to the source
address. -/
theorem handle_dio_recv_first_contact (s : State) (source_addr : uip_ipaddr_t)
    (data : List Nat) (sender_id version rank counter : Nat)
    (hscan : sscanf_dio (c_payload data) = some (sender_id, version, rank, counter))
    (hzero : s.last_seen_counter (get_sender_index sender_id) = 0)
    (hnotbl : s.blacklisted (get_sender_index sender_id) = false) :
    (handle_dio_recv s source_addr data).1 =
      { s with
        pending_auths := (handle_dio_recv s source_addr data).1.pending_auths
        next_nonce := (handle_dio_recv s source_addr data).1.next_nonce } ∧
    ((handle_dio_recv s source_addr data).2 = [] ∨
     (handle_dio_recv s source_addr data).2 = [Msg.auth_req source_addr s.next_nonce]) := by
  simp only [handle_dio_recv, hscan]
  by_cases hself : sender_id = s.my_node_id
  · simp [hself]
  · simp only [hself, hnotbl, hzero, if_false, and_self, if_true]
    cases hf : find_pending_auth s.pending_auths source_addr with
    | some i => simp
    | none =>
      rcases ha : allocate_pending_auth s.pending_auths with ⟨pool, _ | i⟩
      · simp
      · simp

/-- C4 at start-up: the first `"2 1 500 1"` from B leaves rank, parent, trust
table and blacklist of node 3 as they were and sends `AUTH-REQ 1` to B. -/
theorem handle_dio_recv_first_contact_witness :
    (handle_dio_recv (startup 3 none) addrB (bytes "2 1 500 1")).1 =
      { startup 3 none with
        pending_auths :=
          (handle_dio_recv (startup 3 none) addrB (bytes "2 1 500 1")).1.pending_auths
        next_nonce :=
          (handle_dio_recv (startup 3 none) addrB (bytes "2 1 500 1")).1.next_nonce } ∧
    ((handle_dio_recv (startup 3 none) addrB (bytes "2 1 500 1")).2 = [] ∨
     (handle_dio_recv (startup 3 none) addrB (bytes "2 1 500 1")).2 =
       [Msg.auth_req addrB (startup 3 none).next_nonce]) :=
  handle_dio_recv_first_contact (startup 3 none) addrB (bytes "2 1 500 1") 2 1 500 1
    (by decide) (by decide) (by decide)

/-- C5: once `check_auth_timeouts` has expired an entry in use whose claimed
sender is `s`, then after every further sequence of events
`blacklisted[s % 256]` is still true and every advertisement with sender
identifier `s` is dropped by `handle_dio_recv`: the state is unchanged and
nothing (in particular no AUTH-REQ) is sent. -/
theorem blacklisted_after_timeout_forever (s : State)
    (expired : Fin MAX_PENDING_AUTH → Bool) (i : Fin MAX_PENDING_AUTH)
    (hin : (s.pending_auths i).in_use = true) (hexp : expired i = true)
    (es : List Event) :
    (run (check_auth_timeouts s expired) es).blacklisted
      (get_sender_index (s.pending_auths i).sender_id) = true ∧
    ∀ (source_addr : uip_ipaddr_t) (data : List Nat) (version rank counter : Nat),
      sscanf_dio (c_payload data) = some ((s.pending_auths i).sender_id, version, rank, counter) →
      handle_dio_recv (run (check_auth_timeouts s expired) es) source_addr data =
        (run (check_auth_timeouts s expired) es, []) := by
  have h0 := check_auth_timeouts_expired_blacklisted s expired i hin hexp
  have h1 := run_blacklisted_mono es _ _ h0
  refine ⟨h1, ?_⟩
  intro source_addr data version rank counter hscan
  exact handle_dio_recv_blacklisted_drop _ source_addr data _ version rank counter hscan h1

/-- C5 with the challenge of B timed out: after B then answers the challenge
and advertises again, index 2 is still blacklisted and `"2 1 500 9"` is
dropped. -/
theorem blacklisted_after_timeout_forever_witness :
    (run (check_auth_timeouts pendingB (fun _ => true))
        [Event.auth addrB (bytes "AUTH-RESP 1 2779096484"),
         Event.dio addrB (bytes "2 1 500 2"),
         Event.timeouts (fun _ => true)]).blacklisted 2 = true ∧
    handle_dio_recv
        (run (check_auth_timeouts pendingB (fun _ => true))
          [Event.auth addrB (bytes "AUTH-RESP 1 2779096484"),
           Event.dio addrB (bytes "2 1 500 2"),
           Event.timeouts (fun _ => true)])
        addrB (bytes "2 1 500 9") =
      (run (check_auth_timeouts pendingB (fun _ => true))
          [Event.auth addrB (bytes "AUTH-RESP 1 2779096484"),
           Event.dio addrB (bytes "2 1 500 2"),
           Event.timeouts (fun _ => true)], []) :=
  have h := blacklisted_after_timeout_forever pendingB (fun _ => true) 0 (by decide) rfl
    [Event.auth addrB (bytes "AUTH-RESP 1 2779096484"),
     Event.dio addrB (bytes "2 1 500 2"),
     Event.timeouts (fun _ => true)]
  ⟨h.1, h.2 addrB (bytes "2 1 500 9") 1 500 9 (by decide)⟩

/-- C6: an AUTH-RESP changes the node state only if some slot in use has the
source address, holds the received nonce, and the signature is
`nonce XOR SHARED_KEY`. When no slot in use has the address, when the slot
found for the address holds another nonce, or when the signature is wrong,
the whole state is returned unchanged (so the pending entry stays in use) and
nothing is sent. -/
theorem handle_auth_recv_resp_mismatch (s : State) (source_addr : uip_ipaddr_t)
    (data : List Nat) (nonce sig : Nat)
    (hscan : sscanf_auth (c_payload data) = auth_scan.resp nonce sig) :
    (handle_auth_recv s source_addr data ≠ (s, []) →
      ∃ i, (s.pending_auths i).in_use = true ∧ (s.pending_auths i).src_addr = source_addr ∧
        (s.pending_auths i).nonce = nonce ∧ sig = nonce ^^^ SHARED_KEY) ∧
    ((∀ i, (s.pending_auths i).in_use = true → (s.pending_auths i).src_addr ≠ source_addr) →
      handle_auth_recv s source_addr data = (s, [])) ∧
    (∀ i, find_pending_auth s.pending_auths source_addr = some i →
      (s.pending_auths i).nonce ≠ nonce →
      handle_auth_recv s source_addr data = (s, [])) ∧
    (sig ≠ nonce ^^^ SHARED_KEY → handle_auth_recv s source_addr data = (s, [])) := by
  refine ⟨?_, ?_, ?_, ?_⟩
  · intro hchg
    cases hf : find_pending_auth s.pending_auths source_addr with
    | none => simp [handle_auth_recv, hscan, hf] at hchg
    | some i =>
      have hi := ((find_pending_auth_eq_some_iff _ _ _).1 hf).1
      by_cases hok : (s.pending_auths i).nonce = nonce ∧ verify_nonce nonce sig = true
      · refine ⟨i, hi.1, hi.2, hok.1, ?_⟩
        simpa [verify_nonce] using hok.2
      · simp [handle_auth_recv, hscan, hf, hok] at hchg
  · intro hno
    have hf : find_pending_auth s.pending_auths source_addr = none :=
      (find_pending_auth_eq_none_iff _ _).2 (fun i hi => hno i hi.1 hi.2)
    simp [handle_auth_recv, hscan, hf]
  · intro i hf hne
    simp [handle_auth_recv, hscan, hf, hne]
  · intro hsig
    cases hf : find_pending_auth s.pending_auths source_addr with
    | none => simp [handle_auth_recv, hscan, hf]
    | some i => simp [handle_auth_recv, hscan, hf, verify_nonce, hsig]

/-- C6 with the challenge of B pending (nonce 1): a response from another
address, a response with nonce 7, and a response with a wrong signature all
leave the state as it was. -/
theorem handle_auth_recv_resp_mismatch_witness :
    handle_auth_recv pendingB addrC (bytes "AUTH-RESP 1 2779096484") = (pendingB, []) ∧
    handle_auth_recv pendingB addrB (bytes "AUTH-RESP 7 2779096482") = (pendingB, []) ∧
    handle_auth_recv pendingB addrB (bytes "AUTH-RESP 1 12345") = (pendingB, []) :=
  ⟨(handle_auth_recv_resp_mismatch pendingB addrC (bytes "AUTH-RESP 1 2779096484")
      1 2779096484 (by decide)).2.1 (by decide),
   (handle_auth_recv_resp_mismatch pendingB addrB (bytes "AUTH-RESP 7 2779096482")
      7 2779096482 (by decide)).2.2.1 0 (by decide) (by decide),
   (handle_auth_recv_resp_mismatch pendingB addrB (bytes "AUTH-RESP 1 12345")
      1 12345 (by decide)).2.2.2 (by decide)⟩

/-- The table index of a sender is its identifier modulo 256. -/
theorem get_sender_index_eq (sender_id : Nat) (k : Fin 256) :
    k = get_sender_index sender_id ↔ (k : Nat) = sender_id % 256 := by
  constructor
  · intro h
    rw [h]
    rfl
  · intro h
    exact Fin.ext h

/-- C7 fails on the code: node 3 holds the pending challenge (nonce 1) of
sender 2 with claimed rank 4294967295. The verified response commits the
counter and frees the slot, but the parent rule is applied to the 32-bit sum:
`4294967295 + RANK_INCREMENT` is not below `my_rank = 1000000`, yet the node
adopts rank 9 and parent 2. -/
theorem verified_response_rank_wraps :
    Reachable pendingMaxRank ∧
    (pendingMaxRank.pending_auths 0).in_use = true ∧
    (pendingMaxRank.pending_auths 0).src_addr = addrB ∧
    (pendingMaxRank.pending_auths 0).nonce = 1 ∧
    (pendingMaxRank.pending_auths 0).sender_id = 2 ∧
    (pendingMaxRank.pending_auths 0).rank = 4294967295 ∧
    pendingMaxRank.is_root = false ∧ pendingMaxRank.my_rank = 1000000 ∧
    ¬ ((pendingMaxRank.pending_auths 0).rank + RANK_INCREMENT < pendingMaxRank.my_rank) ∧
    (handle_auth_recv pendingMaxRank addrB (bytes "AUTH-RESP 1 2779096484")).1.my_rank = 9 ∧
    (handle_auth_recv pendingMaxRank addrB (bytes "AUTH-RESP 1 2779096484")).1.my_parent_id
      = 2 ∧
    (handle_auth_recv pendingMaxRank addrB (bytes "AUTH-RESP 1 2779096484")).1.parent_addr
      = addrB :=
  ⟨⟨3, none, _, rfl⟩, by decide, by decide, by decide, by decide, by decide, by decide,
   by decide, by decide, by decide, by decide, by decide⟩

/-- C8: `check_auth_timeouts` does the following for every entry in use whose
timer has expired: it sets `blacklisted[sender_id % 256]`, sets
`last_seen_counter[sender_id % 256]` to `UINT32_MAX` and frees the slot.
Entries in use whose timer has not expired, and free slots, are unchanged;
table indices that are not `sender_id % 256` of an expired entry keep their
values; rank and parent are unchanged. -/
theorem check_auth_timeouts_effect (s : State) (expired : Fin MAX_PENDING_AUTH → Bool) :
    (∀ i, (s.pending_auths i).in_use = true → expired i = true →
      (∀ k : Fin 256, (k : Nat) = (s.pending_auths i).sender_id % 256 →
        (check_auth_timeouts s expired).blacklisted k = true ∧
        (check_auth_timeouts s expired).last_seen_counter k = UINT32_MAX) ∧
      (check_auth_timeouts s expired).pending_auths i =
        { s.pending_auths i with timeout_timer := etimer.stopped, in_use := false }) ∧
    (∀ i, (s.pending_auths i).in_use = true → expired i = false →
      (check_auth_timeouts s expired).pending_auths i = s.pending_auths i) ∧
    (∀ i, (s.pending_auths i).in_use = false →
      (check_auth_timeouts s expired).pending_auths i = s.pending_auths i) ∧
    (∀ k : Fin 256, (∀ i, (s.pending_auths i).in_use = true → expired i = true →
        (s.pending_auths i).sender_id % 256 ≠ (k : Nat)) →
      (check_auth_timeouts s expired).blacklisted k = s.blacklisted k ∧
      (check_auth_timeouts s expired).last_seen_counter k = s.last_seen_counter k) ∧
    (check_auth_timeouts s expired).my_rank = s.my_rank ∧
    (check_auth_timeouts s expired).my_parent_id = s.my_parent_id ∧
    (check_auth_timeouts s expired).parent_addr = s.parent_addr ∧
    (check_auth_timeouts s expired).has_parent_addr = s.has_parent_addr := by
  have hp := check_auth_timeouts_loop_pending expired (List.finRange MAX_PENDING_AUTH)
    (List.nodup_finRange _) s
  have ht := check_auth_timeouts_loop_tables expired (List.finRange MAX_PENDING_AUTH)
    (List.nodup_finRange _) s
  have hfr := check_auth_timeouts_loop_frame expired (List.finRange MAX_PENDING_AUTH) s
  unfold check_auth_timeouts
  refine ⟨?_, ?_, ?_, ?_, ?_, ?_, ?_, ?_⟩
  · intro i hu he
    refine ⟨?_, ?_⟩
    · intro k hk
      have hk' := (get_sender_index_eq _ k).2 hk
      exact (ht k).1 ⟨i, List.mem_finRange i, hu, he, hk'.symm⟩
    · rw [hp i]
      simp [hu, he, free_pending_auth]
  · intro i _ he
    rw [hp i]
    simp [he]
  · intro i hu
    rw [hp i]
    simp [hu]
  · intro k hall
    refine (ht k).2 (fun j _ hu he hjk => hall j hu he ?_)
    rw [← hjk]
    rfl
  · rw [hfr]
  · rw [hfr]
  · rw [hfr]
  · rw [hfr]

/-- C8 with the challenge of sender 258 pending in slot 0 and its timer
expired: index 2 (= 258 mod 256) is blacklisted with counter `UINT32_MAX`,
slot 0 is free, and index 3 keeps its values. -/
theorem check_auth_timeouts_effect_witness :
    (pending258.pending_auths 0).sender_id = 258 ∧
    ((check_auth_timeouts pending258 (fun _ => true)).blacklisted 2 = true ∧
      (check_auth_timeouts pending258 (fun _ => true)).last_seen_counter 2 = UINT32_MAX) ∧
    (check_auth_timeouts pending258 (fun _ => true)).pending_auths 0 =
      { pending258.pending_auths 0 with timeout_timer := etimer.stopped, in_use := false } ∧
    ((check_auth_timeouts pending258 (fun _ => true)).blacklisted 3 = pending258.blacklisted 3 ∧
      (check_auth_timeouts pending258 (fun _ => true)).last_seen_counter 3 =
        pending258.last_seen_counter 3) :=
  ⟨by decide,
   ((check_auth_timeouts_effect pending258 (fun _ => true)).1 0 (by decide) rfl).1 2
     (by decide),
   ((check_auth_timeouts_effect pending258 (fun _ => true)).1 0 (by decide) rfl).2,
   (check_auth_timeouts_effect pending258 (fun _ => true)).2.2.2.1 3 (by decide)⟩

/-- C9 fails on the code: in scenario B (non-root, `my_rank = 510`, sender 2
trusted) the fresh advertisement `"2 1 4294967295 9"` has the exact sum
`4294967295 + 10`, which is not below 510, yet the node adopts rank 9 and
parent 2, because the sum is taken in 32 bits. -/
theorem candidate_rank_wraps :
    scenarioB.is_root = false ∧ scenarioB.my_rank = 510 ∧
    sscanf_dio (c_payload (bytes "2 1 4294967295 9")) = some (2, 1, 4294967295, 9) ∧
    ¬ (4294967295 + RANK_INCREMENT < scenarioB.my_rank) ∧
    (handle_dio_recv scenarioB addrB (bytes "2 1 4294967295 9")).1.last_seen_counter 2 = 9 ∧
    (handle_dio_recv scenarioB addrB (bytes "2 1 4294967295 9")).1.my_rank = 9 ∧
    (handle_dio_recv scenarioB addrB (bytes "2 1 4294967295 9")).1.my_parent_id = 2 := by
  decide

/-- C10: no event raises `my_rank`, and an event that changes `my_parent_id`
or the parent address (`parent_addr`, `has_parent_addr`) strictly lowers
`my_rank`. -/
theorem step_rank_only_decreases (s : State) (e : Event) :
    (step s e).1.my_rank ≤ s.my_rank ∧
    ((step s e).1.my_parent_id ≠ s.my_parent_id ∨
     (step s e).1.parent_addr ≠ s.parent_addr ∨
     (step s e).1.has_parent_addr ≠ s.has_parent_addr →
      (step s e).1.my_rank < s.my_rank) := by
  cases e with
  | dio a d => exact handle_dio_recv_rank s a d
  | auth a d => exact handle_auth_recv_rank s a d
  | data a d =>
    simp only [step]
    rw [handle_data_recv_state]
    simp
  | timeouts expired =>
    simp only [step]
    rw [check_auth_timeouts_frame s expired]
    simp
  | dio_timer => simp [step, send_dio]

/-- No event changes `is_root`. -/
theorem step_is_root (s : State) (e : Event) : (step s e).1.is_root = s.is_root := by
  cases e with
  | dio a d =>
    simp only [step, handle_dio_recv]
    repeat' split
    all_goals rfl
  | auth a d =>
    simp only [step, handle_auth_recv]
    repeat' split
    all_goals rfl
  | data a d => simp only [step]; rw [handle_data_recv_state]
  | timeouts expired => simp only [step]; rw [check_auth_timeouts_frame s expired]
  | dio_timer => rfl

/-- On a root node no event writes rank or parent. -/
theorem step_root_frame (s : State) (e : Event) (hroot : s.is_root = true) :
    (step s e).1.my_rank = s.my_rank ∧ (step s e).1.my_parent_id = s.my_parent_id ∧
    (step s e).1.parent_addr = s.parent_addr ∧
    (step s e).1.has_parent_addr = s.has_parent_addr := by
  cases e with
  | dio a d =>
    simp only [step, handle_dio_recv, hroot]
    repeat' split
    all_goals first
      | exact ⟨rfl, rfl, rfl, rfl⟩
      | (exfalso; simp_all)
  | auth a d =>
    simp only [step, handle_auth_recv, hroot]
    repeat' split
    all_goals first
      | exact ⟨rfl, rfl, rfl, rfl⟩
      | (exfalso; simp_all)
  | data a d => simp only [step]; rw [handle_data_recv_state]; exact ⟨rfl, rfl, rfl, rfl⟩
  | timeouts expired =>
    simp only [step]; rw [check_auth_timeouts_frame s expired]; exact ⟨rfl, rfl, rfl, rfl⟩
  | dio_timer => exact ⟨rfl, rfl, rfl, rfl⟩

/-- C11: on a root node (`is_root` true, `my_rank = 0`, no parent) every
finite sequence of events leaves `my_rank = 0`, `my_parent_id = -1` and
`has_parent_addr = false`. -/
theorem root_never_changes_rank_or_parent (s : State) (es : List Event)
    (hroot : s.is_root = true) (hrank : s.my_rank = 0) (hparent : s.my_parent_id = -1)
    (haddr : s.has_parent_addr = false) :
    (run s es).my_rank = 0 ∧ (run s es).my_parent_id = -1 ∧
    (run s es).has_parent_addr = false := by
  induction es generalizing s with
  | nil => exact ⟨hrank, hparent, haddr⟩
  | cons e es ih =>
    have hf := step_root_frame s e hroot
    exact ih (step s e).1 ((step_is_root s e).trans hroot) (hf.1.trans hrank)
      (hf.2.1.trans hparent) (hf.2.2.2.trans haddr)

/-- C11 on the root started with node id 1: an advertisement of rank 0, its
challenge answered, a timeout check and a second advertisement leave rank 0
and no parent. -/
theorem root_never_changes_rank_or_parent_witness :
    (run (startup 1 none)
      [Event.dio addrB (bytes "2 1 0 1"),
       Event.auth addrB (bytes "AUTH-RESP 1 2779096484"),
       Event.timeouts (fun _ => true),
       Event.dio addrB (bytes "2 1 0 2")]).my_rank = 0 ∧
    (run (startup 1 none)
      [Event.dio addrB (bytes "2 1 0 1"),
       Event.auth addrB (bytes "AUTH-RESP 1 2779096484"),
       Event.timeouts (fun _ => true),
       Event.dio addrB (bytes "2 1 0 2")]).my_parent_id = -1 ∧
    (run (startup 1 none)
      [Event.dio addrB (bytes "2 1 0 1"),
       Event.auth addrB (bytes "AUTH-RESP 1 2779096484"),
       Event.timeouts (fun _ => true),
       Event.dio addrB (bytes "2 1 0 2")]).has_parent_addr = false :=
  root_never_changes_rank_or_parent (startup 1 none) _ (by decide) (by decide) (by decide)
    (by decide)

/-- The bytes `handle_dio_sniff` copies are the first 255 of the datagram. -/
theorem handle_dio_sniff_capture (a : Attacker) (data : List Nat)
    (hfree : a.has_captured = false) (hne : data ≠ []) :
    handle_dio_sniff a data =
      { a with
        captured_payload := data.take 255
        has_captured := true
        replay_timer := etimer.armed } := by
  have hpos : 0 < data.length := List.length_pos.2 hne
  unfold handle_dio_sniff
  by_cases hlen : data.length ≥ 256
  · simp [hfree, hpos, hlen]
  · have h1 : data.take data.length = data.take 255 := by
      rw [List.take_of_length_le (Nat.le_refl _), List.take_of_length_le (by omega)]
    simp [hfree, hpos, hlen, h1]

/-- Once a payload is captured, `handle_dio_sniff` changes nothing. -/
theorem handle_dio_sniff_captured (a : Attacker) (data : List Nat)
    (hcap : a.has_captured = true) : handle_dio_sniff a data = a := by
  simp [handle_dio_sniff, hcap]

/-- Once a payload is captured, no sequence of datagrams changes the
attacker. -/
theorem sniff_all_captured (ds : List (List Nat)) (a : Attacker)
    (hcap : a.has_captured = true) : sniff_all a ds = a := by
  induction ds with
  | nil => rfl
  | cons d ds ih =>
    simp only [sniff_all]
    rw [handle_dio_sniff_captured a d hcap]
    exact ih

/-- The attacker after a sequence of datagrams holds the first 255 bytes of
the first non-empty one. -/
theorem sniff_all_first (ds : List (List Nat)) (a : Attacker) (d : List Nat)
    (hfree : a.has_captured = false)
    (hfirst : ds.find? (fun x => decide (x ≠ [])) = some d) :
    sniff_all a ds =
      { a with
        captured_payload := d.take 255
        has_captured := true
        replay_timer := etimer.armed } := by
  induction ds with
  | nil => simp at hfirst
  | cons x ds ih =>
    simp only [sniff_all]
    by_cases hx : x = []
    · have hs : handle_dio_sniff a x = a := by simp [handle_dio_sniff, hx]
      rw [hs]
      apply ih
      simpa [List.find?, hx] using hfirst
    · have hd : x = d := by simpa [List.find?, hx] using hfirst
      rw [handle_dio_sniff_capture a x hfree hx, sniff_all_captured _ _ rfl, hd]

/-- C15, as stated, fails: after the three-byte datagram `'2' NUL '1'` the
attacker replays the single byte `'2'`. -/
theorem replay_not_verbatim :
    ¬ ∀ (ds : List (List Nat)) (d : List Nat),
        ds.find? (fun x => decide (x ≠ [])) = some d →
        (replay_captured (sniff_all attacker_startup ds)).2 = [d] := by
  intro h
  have h1 := h [[50, 0, 49]] [50, 0, 49] (by decide)
  revert h1
  decide

/-- C15, amended: the attacker stores the first 255 bytes of the first
non-empty datagram it observes, and `replay_captured` transmits them up to
their first NUL byte (nothing when the first byte is NUL). For a datagram of
at most 255 bytes without a NUL byte the transmitted payload is the datagram
itself. Datagrams observed after the capture change nothing. -/
theorem replay_of_first_capture (ds : List (List Nat)) (d : List Nat)
    (hfirst : ds.find? (fun x => decide (x ≠ [])) = some d) :
    (sniff_all attacker_startup ds).captured_payload = d.take 255 ∧
    (d.head? ≠ some 0 →
      (replay_captured (sniff_all attacker_startup ds)).2 =
        [(d.take 255).takeWhile (fun c => c != 0)]) ∧
    (d.head? = some 0 → (replay_captured (sniff_all attacker_startup ds)).2 = []) ∧
    (d.length ≤ 255 → 0 ∉ d →
      (replay_captured (sniff_all attacker_startup ds)).2 = [d]) ∧
    (∀ more : List (List Nat),
      sniff_all attacker_startup (ds ++ more) = sniff_all attacker_startup ds) := by
  have hs := sniff_all_first ds attacker_startup d rfl hfirst
  have hne : d ≠ [] := by
    have := List.find?_some hfirst
    simpa using this
  obtain ⟨c, cs, rfl⟩ := List.exists_cons_of_ne_nil hne
  have hrun : ∀ more : List (List Nat),
      sniff_all attacker_startup (ds ++ more) = sniff_all attacker_startup ds := by
    intro more
    have happ : ∀ (l : List (List Nat)) (a : Attacker),
        sniff_all a (l ++ more) = sniff_all (sniff_all a l) more := by
      intro l
      induction l with
      | nil => intro a; rfl
      | cons x l ih => intro a; simp only [List.cons_append, sniff_all]; exact ih _
    rw [happ, sniff_all_captured more _ (by rw [hs])]
  have hnz : c ≠ 0 → (replay_captured (sniff_all attacker_startup ds)).2 =
      [((c :: cs).take 255).takeWhile (fun c => c != 0)] := by
    intro hc
    rw [hs]
    simp [replay_captured, hc]
  refine ⟨by rw [hs], ?_, ?_, ?_, hrun⟩
  · intro h0
    exact hnz (by simpa using h0)
  · intro h0
    have hc : c = 0 := by simpa using h0
    rw [hs]
    simp [replay_captured, hc]
  · intro hlen hnul
    have hc : c ≠ 0 := fun h => hnul (by simp [h])
    rw [hnz hc, List.take_of_length_le hlen]
    congr 1
    rw [List.takeWhile_eq_self_iff]
    intro x hx
    have : x ≠ 0 := fun h => hnul (h ▸ hx)
    simpa using this

/-- C15, amended, on an empty datagram followed by `"2 1 500 5"` and
`"2 1 500 6"`: the attacker replays `"2 1 500 5"`. -/
theorem replay_of_first_capture_witness :
    (replay_captured
      (sniff_all attacker_startup [[], bytes "2 1 500 5", bytes "2 1 500 6"])).2 =
      [bytes "2 1 500 5"] :=
  (replay_of_first_capture [[], bytes "2 1 500 5", bytes "2 1 500 6"] (bytes "2 1 500 5")
    (by decide)).2.2.2.1 (by decide) (by decide)

/-! ## Lemmas on the wire format -/

/-- Every byte `dec_fuel` produces is a decimal digit. -/
theorem dec_fuel_isdigit (fuel n : Nat) : ∀ c ∈ dec_fuel fuel n, isdigit c = true := by
  induction fuel generalizing n with
  | zero => intro c hc; simp [dec_fuel] at hc
  | succ fuel ih =>
    intro c hc
    unfold dec_fuel at hc
    by_cases hn : n < 10
    · simp [hn] at hc
      subst hc
      simp [isdigit]
      omega
    · simp [hn] at hc
      rcases hc with hc | hc
      · exact ih _ c hc
      · subst hc
        simp [isdigit]
        omega

/-- With fuel left `dec_fuel` produces at least one digit. -/
theorem dec_fuel_ne_nil (fuel n : Nat) : dec_fuel (fuel + 1) n ≠ [] := by
  unfold dec_fuel
  by_cases hn : n < 10 <;> simp [hn]

/-- `dec_fuel` produces at most `fuel` digits. -/
theorem dec_fuel_length (fuel n : Nat) : (dec_fuel fuel n).length ≤ fuel := by
  induction fuel generalizing n with
  | zero => simp [dec_fuel]
  | succ fuel ih =>
    unfold dec_fuel
    by_cases hn : n < 10
    · simp [hn]
    · simp [hn]
      exact ih _

/-- Reading the digits of `dec_fuel` back in base ten gives the number. -/
theorem dec_fuel_value (fuel n acc : Nat) (hn : n < 10 ^ fuel) :
    (dec_fuel fuel n).foldl (fun a c => a * 10 + (c - 48)) acc =
      acc * 10 ^ (dec_fuel fuel n).length + n := by
  induction fuel generalizing n acc with
  | zero =>
    have : n = 0 := by simpa using hn
    simp [dec_fuel, this]
  | succ fuel ih =>
    unfold dec_fuel
    by_cases h10 : n < 10
    · simp [h10]
    · have hdiv : n / 10 < 10 ^ fuel := by
        rw [Nat.div_lt_iff_lt_mul (by decide)]
        rw [pow_succ] at hn
        exact hn
      simp only [h10, if_false, List.foldl_append, List.foldl_cons, List.foldl_nil,
        List.length_append, List.length_cons, List.length_nil]
      rw [ih (n / 10) acc hdiv]
      have hmod : n % 10 + 48 - 48 = n % 10 := by omega
      rw [hmod, pow_succ]
      have := Nat.div_add_mod n 10
      nlinarith [Nat.div_add_mod n 10]

/-- `scan_digits` consumes a run of digits that is followed by the end of the
string or by a byte that is not a digit. -/
theorem scan_digits_append (ds rest : List Nat) (acc : Nat)
    (hds : ∀ c ∈ ds, isdigit c = true)
    (hrest : ∀ c, rest.head? = some c → isdigit c = false) :
    scan_digits acc (ds ++ rest) = (ds.foldl (fun a c => a * 10 + (c - 48)) acc, rest) := by
  induction ds generalizing acc with
  | nil =>
    cases rest with
    | nil => simp [scan_digits]
    | cons c cs =>
      have := hrest c rfl
      simp [scan_digits, this]
  | cons d ds ih =>
    have hd : isdigit d = true := hds d (List.mem_cons_self _ _)
    simp only [List.cons_append, scan_digits, hd, if_true, List.foldl_cons]
    exact ih _ (fun c hc => hds c (List.mem_cons_of_mem _ hc))
/-- `%u` on a string that starts with a digit reads the run of digits. -/
theorem scan_u32_digit (c : Nat) (l : List Nat) (hc : isdigit c = true) :
    scan_u32 (c :: l) =
      some (u32 (scan_digits 0 (c :: l)).1, (scan_digits 0 (c :: l)).2) := by
  have hc' : 48 ≤ c ∧ c ≤ 57 := by simpa [isdigit] using hc
  obtain ⟨h1, h2⟩ := hc'
  interval_cases c <;> simp [scan_u32, List.dropWhile, isspace, isdigit]
/-- `%u` reads back what `%u` printed: a 32-bit value written by `dec`,
optionally after one blank, and followed by the end of the string or a byte
that is not a digit. -/
theorem scan_u32_dec (n : Nat) (rest : List Nat)
    (hrest : ∀ c, rest.head? = some c → isdigit c = false) :
    scan_u32 (dec n ++ rest) = some (u32 n, rest) ∧
    scan_u32 (32 :: (dec n ++ rest)) = some (u32 n, rest) := by
  have hlt : u32 n < 10 ^ 10 := by unfold u32; omega
  have hdig := dec_fuel_isdigit 10 (u32 n)
  have hval := dec_fuel_value 10 (u32 n) 0 hlt
  have hscan := scan_digits_append (dec_fuel 10 (u32 n)) rest 0 hdig hrest
  have huu : u32 (u32 n) = u32 n := by unfold u32; omega
  obtain ⟨c, cs, hcs⟩ := List.exists_cons_of_ne_nil (dec_fuel_ne_nil 9 (u32 n))
  have hc : isdigit c = true := hdig c (by rw [hcs]; exact List.mem_cons_self _ _)
  have hscan2 : scan_digits 0 (c :: (cs ++ rest)) = (u32 n, rest) := by
    have : c :: (cs ++ rest) = dec_fuel 10 (u32 n) ++ rest := by rw [hcs]; rfl
    rw [this, hscan, hval]
    simp
  have hcore : scan_u32 (c :: (cs ++ rest)) = some (u32 n, rest) := by
    rw [scan_u32_digit c _ hc, hscan2, huu]
  have hdec : dec n ++ rest = c :: (cs ++ rest) := by
    unfold dec
    rw [hcs]
    rfl
  rw [hdec]
  refine ⟨hcore, ?_⟩
  have hblank : scan_u32 (32 :: c :: (cs ++ rest)) = scan_u32 (c :: (cs ++ rest)) := by
    simp [scan_u32, List.dropWhile, isspace]
  rw [hblank]
  exact hcore
/-- A datagram of at most 127 bytes without NUL byte is scanned whole. -/
theorem c_payload_eq_self (p : List Nat) (hlen : p.length ≤ 127) (hnul : ∀ c ∈ p, c ≠ 0) :
    c_payload p = p := by
  unfold c_payload
  rw [List.take_of_length_le hlen, List.takeWhile_eq_self_iff]
  intro c hc
  simpa using hnul c hc

/-- The digits `dec` writes: at most ten, none of them NUL. -/
theorem dec_bytes (n : Nat) : (dec n).length ≤ 10 ∧ ∀ c ∈ dec n, c ≠ 0 := by
  refine ⟨dec_fuel_length 10 _, ?_⟩
  intro c hc h0
  have := dec_fuel_isdigit 10 _ c hc
  rw [h0] at this
  simp [isdigit] at this

/-- The AUTH-RESP that `send_auth_resp` writes is scanned by `handle_auth_recv`
as a response with the same two 32-bit values. -/
theorem sscanf_auth_wire_resp (dest : uip_ipaddr_t) (nonce sig : Nat) :
    sscanf_auth (c_payload (wire (Msg.auth_resp dest nonce sig))) =
      auth_scan.resp (u32 nonce) (u32 sig) := by
  have hb : bytes "AUTH-RESP " = [65, 85, 84, 72, 45, 82, 69, 83, 80, 32] := by decide
  have hb2 : bytes "AUTH-RESP" = [65, 85, 84, 72, 45, 82, 69, 83, 80] := by decide
  have hb3 : bytes "AUTH-REQ" = [65, 85, 84, 72, 45, 82, 69, 81] := by decide
  have hn := dec_bytes nonce
  have hs := dec_bytes sig
  have hw : wire (Msg.auth_resp dest nonce sig) =
      [65, 85, 84, 72, 45, 82, 69, 83, 80] ++ 32 :: (dec nonce ++ 32 :: dec sig) := by
    simp only [wire]
    rw [hb, List.take_of_length_le]
    · simp
    · simp
      omega
  have hc : c_payload (wire (Msg.auth_resp dest nonce sig)) =
      [65, 85, 84, 72, 45, 82, 69, 83, 80] ++ 32 :: (dec nonce ++ 32 :: dec sig) := by
    rw [hw]
    apply c_payload_eq_self
    · simp
      omega
    · intro c hc
      simp at hc
      rcases hc with h | h | h | h | h | h | h | h | h | h | h | h | h
      all_goals first
        | omega
        | exact hn.2 c h
        | exact hs.2 c h
  have h1 := (scan_u32_dec nonce (32 :: dec sig) (by intro c hc; simp at hc; subst hc; decide)).2
  have h2 := (scan_u32_dec sig [] (by intro c hc; simp at hc)).2
  rw [List.append_nil] at h2
  rw [hc]
  simp [sscanf_auth, scan_s, scan_lit, List.dropWhile, List.takeWhile, isspace, hb2, hb3, h1, h2]

/-- The AUTH-REQ that `send_auth_req` writes is scanned by `handle_auth_recv`
as a request with the same 32-bit nonce. -/
theorem sscanf_auth_wire_req (dest : uip_ipaddr_t) (nonce : Nat) :
    sscanf_auth (c_payload (wire (Msg.auth_req dest nonce))) = auth_scan.req (u32 nonce) := by
  have hb : bytes "AUTH-REQ " = [65, 85, 84, 72, 45, 82, 69, 81, 32] := by decide
  have hb2 : bytes "AUTH-RESP" = [65, 85, 84, 72, 45, 82, 69, 83, 80] := by decide
  have hb3 : bytes "AUTH-REQ" = [65, 85, 84, 72, 45, 82, 69, 81] := by decide
  have hn := dec_bytes nonce
  have hw : wire (Msg.auth_req dest nonce) =
      [65, 85, 84, 72, 45, 82, 69, 81] ++ 32 :: (dec nonce ++ []) := by
    simp only [wire]
    rw [hb, List.take_of_length_le]
    · simp
    · simp
      omega
  have hc : c_payload (wire (Msg.auth_req dest nonce)) =
      [65, 85, 84, 72, 45, 82, 69, 81] ++ 32 :: (dec nonce ++ []) := by
    rw [hw]
    apply c_payload_eq_self
    · simp
      omega
    · intro c hc
      simp at hc
      rcases hc with h | h | h | h | h | h | h | h | h | h
      all_goals first
        | omega
        | exact hn.2 c h
  have h1 := (scan_u32_dec nonce [] (by intro c hc; simp at hc)).2
  rw [hc]
  simp only [List.append_nil] at h1 ⊢
  simp [sscanf_auth, scan_s, scan_lit, List.dropWhile, List.takeWhile, isspace, hb2, hb3, h1]

/-! ## Lemmas on the first-contact branch and the verified response -/

/-- `allocate_pending_auth` returns `NULL` and changes nothing when every
slot is in use. -/
theorem allocate_pending_auth_full (pool : Fin MAX_PENDING_AUTH → pending_auth)
    (hfull : ∀ i, (pool i).in_use = true) : allocate_pending_auth pool = (pool, none) := by
  have h : Fin.find (fun i => (pool i).in_use = false) = none :=
    Fin.find_eq_none_iff.2 (fun i hi => by rw [hfull i] at hi; exact absurd hi (by decide))
  simp [allocate_pending_auth, h]

/-- `allocate_pending_auth` marks the lowest free slot in use and returns
it. -/
theorem allocate_pending_auth_free (pool : Fin MAX_PENDING_AUTH → pending_auth)
    (i : Fin MAX_PENDING_AUTH) (hfree : (pool i).in_use = false)
    (hlow : ∀ j, (pool j).in_use = false → i ≤ j) :
    allocate_pending_auth pool =
      (setAt pool i { pool i with in_use := true }, some i) := by
  have h : Fin.find (fun i => (pool i).in_use = false) = some i :=
    Fin.find_eq_some_iff.2 ⟨hfree, hlow⟩
  simp [allocate_pending_auth, h]

/-- When some slot is free there is a lowest free one. -/
theorem exists_lowest_free (pool : Fin MAX_PENDING_AUTH → pending_auth)
    (hsome : ∃ i, (pool i).in_use = false) :
    ∃ i, (pool i).in_use = false ∧ ∀ j, (pool j).in_use = false → i ≤ j := by
  cases h : Fin.find (fun i => (pool i).in_use = false) with
  | none =>
    obtain ⟨i, hi⟩ := hsome
    exact absurd hi (Fin.find_eq_none_iff.1 h i)
  | some i => exact ⟨i, Fin.find_eq_some_iff.1 h⟩

/-- First contact from an address that has a pending entry: the claimed
fields of that entry are overwritten and nothing else happens. -/
theorem handle_dio_recv_refresh (s : State) (source_addr : uip_ipaddr_t) (data : List Nat)
    (sender_id version rank counter : Nat) (i : Fin MAX_PENDING_AUTH)
    (hscan : sscanf_dio (c_payload data) = some (sender_id, version, rank, counter))
    (hself : sender_id ≠ s.my_node_id)
    (hnotbl : s.blacklisted (get_sender_index sender_id) = false)
    (hzero : s.last_seen_counter (get_sender_index sender_id) = 0)
    (hfind : find_pending_auth s.pending_auths source_addr = some i) :
    handle_dio_recv s source_addr data =
      ({ s with
         pending_auths := setAt s.pending_auths i
           { s.pending_auths i with
             sender_id := sender_id, version := version, rank := rank, counter := counter } },
       []) := by
  simp [handle_dio_recv, hscan, hself, hnotbl, hzero, hfind]

/-- First contact from an address without pending entry while every slot is
in use: nothing happens. -/
theorem handle_dio_recv_pool_full (s : State) (source_addr : uip_ipaddr_t) (data : List Nat)
    (sender_id version rank counter : Nat)
    (hscan : sscanf_dio (c_payload data) = some (sender_id, version, rank, counter))
    (hzero : s.last_seen_counter (get_sender_index sender_id) = 0)
    (hfind : find_pending_auth s.pending_auths source_addr = none)
    (hfull : ∀ i, (s.pending_auths i).in_use = true) :
    handle_dio_recv s source_addr data = (s, []) := by
  have ha := allocate_pending_auth_full s.pending_auths hfull
  simp only [handle_dio_recv, hscan]
  by_cases hself : sender_id = s.my_node_id
  · simp [hself]
  · by_cases hbl : s.blacklisted (get_sender_index sender_id) = true
    · simp [hself, hbl]
    · simp [hself, hbl, hzero, hfind, ha]

/-- First contact from an address without pending entry while slot `i` is the
lowest free one: slot `i` takes the challenge, `next_nonce` advances and the
AUTH-REQ is sent. -/
theorem handle_dio_recv_alloc (s : State) (source_addr : uip_ipaddr_t) (data : List Nat)
    (sender_id version rank counter : Nat) (i : Fin MAX_PENDING_AUTH)
    (hscan : sscanf_dio (c_payload data) = some (sender_id, version, rank, counter))
    (hself : sender_id ≠ s.my_node_id)
    (hnotbl : s.blacklisted (get_sender_index sender_id) = false)
    (hzero : s.last_seen_counter (get_sender_index sender_id) = 0)
    (hfind : find_pending_auth s.pending_auths source_addr = none)
    (hfree : (s.pending_auths i).in_use = false)
    (hlow : ∀ j, (s.pending_auths j).in_use = false → i ≤ j) :
    handle_dio_recv s source_addr data =
      ({ s with
         pending_auths := setAt s.pending_auths i
           { src_addr := source_addr, sender_id := sender_id, version := version,
             rank := rank, counter := counter, nonce := s.next_nonce,
             timeout_timer := etimer.armed, in_use := true }
         next_nonce := u32 (s.next_nonce + 1) },
       [Msg.auth_req source_addr s.next_nonce]) := by
  have ha := allocate_pending_auth_free s.pending_auths i hfree hlow
  simp only [handle_dio_recv, hscan, hself, hnotbl, hzero, hfind, ha]
  simp only [if_false, and_self, if_true, Bool.false_eq_true]
  congr 2
  funext j
  by_cases hj : j = i <;> simp [setAt, hj]

/-- A verified AUTH-RESP for the entry in slot `i`: the state afterwards. -/
theorem handle_auth_recv_resp_ok (s : State) (source_addr : uip_ipaddr_t) (data : List Nat)
    (nonce sig : Nat) (i : Fin MAX_PENDING_AUTH)
    (hscan : sscanf_auth (c_payload data) = auth_scan.resp nonce sig)
    (hfind : find_pending_auth s.pending_auths source_addr = some i)
    (hnonce : (s.pending_auths i).nonce = nonce)
    (hsig : sig = nonce ^^^ SHARED_KEY) :
    handle_auth_recv s source_addr data =
      (if s.is_root = false ∧ u32 ((s.pending_auths i).rank + RANK_INCREMENT) < s.my_rank then
         { s with
           last_seen_counter := setAt s.last_seen_counter
             (get_sender_index (s.pending_auths i).sender_id) (s.pending_auths i).counter
           my_rank := u32 ((s.pending_auths i).rank + RANK_INCREMENT)
           my_parent_id := to_int (s.pending_auths i).sender_id
           parent_addr := source_addr
           has_parent_addr := true
           pending_auths := setAt s.pending_auths i (free_pending_auth (s.pending_auths i)) }
       else
         { s with
           last_seen_counter := setAt s.last_seen_counter
             (get_sender_index (s.pending_auths i).sender_id) (s.pending_auths i).counter
           pending_auths := setAt s.pending_auths i (free_pending_auth (s.pending_auths i)) },
       []) := by
  have hv : verify_nonce nonce sig = true := by simp [verify_nonce, hsig]
  simp only [handle_auth_recv, hscan, hfind, hnonce, hv, and_self, if_true]
  by_cases hroot : s.is_root = false
  · by_cases hcand : u32 ((s.pending_auths i).rank + RANK_INCREMENT) < s.my_rank
    · simp [hroot, hcand]
    · simp [hroot, hcand]
  · simp [hroot]

/-- What `handle_dio_recv` does to the pending pool: either it issues no
challenge and takes no slot (slots in use afterwards were in use before, with
the same address and nonce), or it takes one free slot for an address that
had none, with the old `next_nonce`, and sends the AUTH-REQ. -/
theorem handle_dio_recv_pool_cases (s : State) (source_addr : uip_ipaddr_t)
    (data : List Nat) :
    ((∀ j, ((handle_dio_recv s source_addr data).1.pending_auths j).in_use = true →
        (s.pending_auths j).in_use = true ∧
        ((handle_dio_recv s source_addr data).1.pending_auths j).src_addr =
          (s.pending_auths j).src_addr ∧
        ((handle_dio_recv s source_addr data).1.pending_auths j).nonce =
          (s.pending_auths j).nonce) ∧
      (handle_dio_recv s source_addr data).1.next_nonce = s.next_nonce ∧
      req_nonces (handle_dio_recv s source_addr data).2 = []) ∨
    (∃ i, (s.pending_auths i).in_use = false ∧
      (∀ j, (s.pending_auths j).in_use = true → (s.pending_auths j).src_addr ≠ source_addr) ∧
      ((handle_dio_recv s source_addr data).1.pending_auths i).in_use = true ∧
      ((handle_dio_recv s source_addr data).1.pending_auths i).src_addr = source_addr ∧
      ((handle_dio_recv s source_addr data).1.pending_auths i).nonce = s.next_nonce ∧
      (∀ j, j ≠ i → (handle_dio_recv s source_addr data).1.pending_auths j = s.pending_auths j) ∧
      (handle_dio_recv s source_addr data).1.next_nonce = u32 (s.next_nonce + 1) ∧
      (handle_dio_recv s source_addr data).2 = [Msg.auth_req source_addr s.next_nonce]) := by
  have hsame : handle_dio_recv s source_addr data = (s, []) →
      ((∀ j, ((handle_dio_recv s source_addr data).1.pending_auths j).in_use = true →
        (s.pending_auths j).in_use = true ∧
        ((handle_dio_recv s source_addr data).1.pending_auths j).src_addr =
          (s.pending_auths j).src_addr ∧
        ((handle_dio_recv s source_addr data).1.pending_auths j).nonce =
          (s.pending_auths j).nonce) ∧
      (handle_dio_recv s source_addr data).1.next_nonce = s.next_nonce ∧
      req_nonces (handle_dio_recv s source_addr data).2 = []) := by
    intro h
    rw [h]
    exact ⟨fun j hj => ⟨hj, rfl, rfl⟩, rfl, rfl⟩
  cases hscan : sscanf_dio (c_payload data) with
  | none => exact Or.inl (hsame (by simp [handle_dio_recv, hscan]))
  | some r =>
    obtain ⟨sender_id, version, rank, counter⟩ := r
    by_cases hself : sender_id = s.my_node_id
    · exact Or.inl (hsame (by simp [handle_dio_recv, hscan, hself]))
    by_cases hbl : s.blacklisted (get_sender_index sender_id) = true
    · exact Or.inl (hsame (by simp [handle_dio_recv, hscan, hself, hbl]))
    have hnotbl : s.blacklisted (get_sender_index sender_id) = false := by simpa using hbl
    by_cases hzero : s.last_seen_counter (get_sender_index sender_id) = 0
    · cases hfind : find_pending_auth s.pending_auths source_addr with
      | some i =>
        left
        rw [handle_dio_recv_refresh s source_addr data _ _ _ _ i hscan hself hnotbl hzero hfind]
        refine ⟨?_, rfl, rfl⟩
        intro j hj
        by_cases hji : j = i
        · subst hji
          simp [setAt] at hj ⊢
          exact hj
        · simp [setAt, hji] at hj ⊢
          exact hj
      | none =>
        have hno := (find_pending_auth_eq_none_iff _ _).1 hfind
        by_cases hfull : ∀ i, (s.pending_auths i).in_use = true
        · exact Or.inl (hsame
            (handle_dio_recv_pool_full s source_addr data _ _ _ _ hscan hzero hfind hfull))
        · have hsome : ∃ i, (s.pending_auths i).in_use = false := by
            by_contra hcon
            exact hfull (fun i => by
              have := fun h => hcon ⟨i, h⟩
              simpa using this)
          obtain ⟨i, hfree, hlow⟩ := exists_lowest_free s.pending_auths hsome
          right
          rw [handle_dio_recv_alloc s source_addr data _ _ _ _ i hscan hself hnotbl hzero hfind
            hfree hlow]
          refine ⟨i, hfree, fun j hj haddr => hno j ⟨hj, haddr⟩, ?_, ?_, ?_, ?_, rfl, rfl⟩
          · simp [setAt]
          · simp [setAt]
          · simp [setAt]
          · intro j hji
            simp [setAt, hji]
    · left
      simp only [handle_dio_recv, hscan, hself, hnotbl, hzero]
      simp only [if_false, false_and, Bool.false_eq_true]
      repeat' split
      all_goals exact ⟨fun j hj => ⟨hj, rfl, rfl⟩, rfl, rfl⟩

/-- `handle_auth_recv` issues no challenge and takes no slot. -/
theorem handle_auth_recv_pool (s : State) (source_addr : uip_ipaddr_t) (data : List Nat) :
    (∀ j, ((handle_auth_recv s source_addr data).1.pending_auths j).in_use = true →
      (s.pending_auths j).in_use = true ∧
      ((handle_auth_recv s source_addr data).1.pending_auths j).src_addr =
        (s.pending_auths j).src_addr ∧
      ((handle_auth_recv s source_addr data).1.pending_auths j).nonce =
        (s.pending_auths j).nonce) ∧
    (handle_auth_recv s source_addr data).1.next_nonce = s.next_nonce ∧
    req_nonces (handle_auth_recv s source_addr data).2 = [] := by
  have hsame : ∀ out, req_nonces out = [] → handle_auth_recv s source_addr data = (s, out) →
      ((∀ j, ((handle_auth_recv s source_addr data).1.pending_auths j).in_use = true →
        (s.pending_auths j).in_use = true ∧
        ((handle_auth_recv s source_addr data).1.pending_auths j).src_addr =
          (s.pending_auths j).src_addr ∧
        ((handle_auth_recv s source_addr data).1.pending_auths j).nonce =
          (s.pending_auths j).nonce) ∧
      (handle_auth_recv s source_addr data).1.next_nonce = s.next_nonce ∧
      req_nonces (handle_auth_recv s source_addr data).2 = []) := by
    intro out hout h
    rw [h]
    exact ⟨fun j hj => ⟨hj, rfl, rfl⟩, rfl, hout⟩
  cases hscan : sscanf_auth (c_payload data) with
  | ignored => exact hsame [] rfl (by simp [handle_auth_recv, hscan])
  | req nonce =>
    exact hsame [Msg.auth_resp source_addr nonce (sign_nonce nonce)] rfl
      (by simp [handle_auth_recv, hscan])
  | resp nonce sig =>
    cases hfind : find_pending_auth s.pending_auths source_addr with
    | none => exact hsame [] rfl (by simp [handle_auth_recv, hscan, hfind])
    | some i =>
      by_cases hok : (s.pending_auths i).nonce = nonce ∧ verify_nonce nonce sig = true
      · have hsig : sig = nonce ^^^ SHARED_KEY := by simpa [verify_nonce] using hok.2
        rw [handle_auth_recv_resp_ok s source_addr data nonce sig i hscan hfind hok.1 hsig]
        have hpool : ∀ j, (setAt s.pending_auths i (free_pending_auth (s.pending_auths i)) j).in_use
            = true →
            (s.pending_auths j).in_use = true ∧
            (setAt s.pending_auths i (free_pending_auth (s.pending_auths i)) j).src_addr =
              (s.pending_auths j).src_addr ∧
            (setAt s.pending_auths i (free_pending_auth (s.pending_auths i)) j).nonce =
              (s.pending_auths j).nonce := by
          intro j hj
          by_cases hji : j = i
          · subst hji
            simp [setAt, free_pending_auth] at hj
          · simp [setAt, hji] at hj ⊢
            exact hj
        split
        · exact ⟨hpool, rfl, rfl⟩
        · exact ⟨hpool, rfl, rfl⟩
      · exact hsame [] rfl (by simp [handle_auth_recv, hscan, hfind, hok])

/-- `check_auth_timeouts` issues no challenge and takes no slot. -/
theorem check_auth_timeouts_pool (s : State) (expired : Fin MAX_PENDING_AUTH → Bool) :
    (∀ j, ((check_auth_timeouts s expired).pending_auths j).in_use = true →
      (s.pending_auths j).in_use = true ∧
      ((check_auth_timeouts s expired).pending_auths j).src_addr =
        (s.pending_auths j).src_addr ∧
      ((check_auth_timeouts s expired).pending_auths j).nonce = (s.pending_auths j).nonce) ∧
    (check_auth_timeouts s expired).next_nonce = s.next_nonce := by
  constructor
  · intro j
    unfold check_auth_timeouts
    rw [check_auth_timeouts_loop_pending expired _ (List.nodup_finRange _) s j]
    by_cases h : j ∈ List.finRange MAX_PENDING_AUTH ∧ (s.pending_auths j).in_use = true ∧
        expired j = true
    · simp [h, free_pending_auth]
    · rw [if_neg h]
      intro hj
      exact ⟨hj, rfl, rfl⟩
  · rw [check_auth_timeouts_frame s expired]

/-- What an event does to the pending pool: either it issues no challenge and
takes no slot, or it takes one free slot for an address that had none, with
the old `next_nonce`, and sends the AUTH-REQ. -/
theorem step_pool_cases (s : State) (e : Event) :
    ((∀ j, ((step s e).1.pending_auths j).in_use = true →
        (s.pending_auths j).in_use = true ∧
        ((step s e).1.pending_auths j).src_addr = (s.pending_auths j).src_addr ∧
        ((step s e).1.pending_auths j).nonce = (s.pending_auths j).nonce) ∧
      (step s e).1.next_nonce = s.next_nonce ∧ req_nonces (step s e).2 = []) ∨
    (∃ a i, (s.pending_auths i).in_use = false ∧
      (∀ j, (s.pending_auths j).in_use = true → (s.pending_auths j).src_addr ≠ a) ∧
      ((step s e).1.pending_auths i).in_use = true ∧
      ((step s e).1.pending_auths i).src_addr = a ∧
      ((step s e).1.pending_auths i).nonce = s.next_nonce ∧
      (∀ j, j ≠ i → (step s e).1.pending_auths j = s.pending_auths j) ∧
      (step s e).1.next_nonce = u32 (s.next_nonce + 1) ∧
      (step s e).2 = [Msg.auth_req a s.next_nonce]) := by
  cases e with
  | dio a d =>
    rcases handle_dio_recv_pool_cases s a d with h | ⟨i, h⟩
    · exact Or.inl h
    · exact Or.inr ⟨a, i, h⟩
  | auth a d => exact Or.inl (handle_auth_recv_pool s a d)
  | data a d =>
    left
    simp only [step]
    rw [handle_data_recv_state]
    refine ⟨fun j hj => ⟨hj, rfl, rfl⟩, rfl, ?_⟩
    simp only [handle_data_recv]
    repeat' split
    all_goals rfl
  | timeouts expired =>
    have h := check_auth_timeouts_pool s expired
    exact Or.inl ⟨h.1, h.2, rfl⟩
  | dio_timer => exact Or.inl ⟨fun j hj => ⟨hj, rfl, rfl⟩, rfl, rfl⟩

/-! ## Properties of the specification, continued -/

/-- Every event keeps the addresses of the slots in use distinct. -/
theorem step_pending_addresses_unique (s : State) (e : Event)
    (h : pending_addresses_unique s) : pending_addresses_unique (step s e).1 := by
  intro i j hi hj hij
  rcases step_pool_cases s e with ⟨hold, _, _⟩ | ⟨a, k, hfree, hno, _, hka, _, hother, _, _⟩
  · have h1 := hold i hi
    have h2 := hold j hj
    exact h i j h1.1 h2.1 (by rw [← h1.2.1, ← h2.2.1]; exact hij)
  · by_cases hik : i = k
    · by_cases hjk : j = k
      · rw [hik, hjk]
      · exfalso
        rw [hother j hjk] at hj hij
        rw [hik, hka] at hij
        exact hno j hj hij.symm
    · by_cases hjk : j = k
      · exfalso
        rw [hother i hik] at hi hij
        rw [hjk, hka] at hij
        exact hno i hi hij
      · rw [hother i hik] at hi hij
        rw [hother j hjk] at hj hij
        exact h i j hi hj hij

/-- In every reachable state the addresses of the slots in use are
distinct. -/
theorem reachable_pending_addresses_unique (s : State) (hreach : Reachable s) :
    pending_addresses_unique s := by
  obtain ⟨node_id, global_addr, es, rfl⟩ := hreach
  have hgen : ∀ (es : List Event) (t : State), pending_addresses_unique t →
      pending_addresses_unique (run t es) := by
    intro es
    induction es with
    | nil => intro t ht; exact ht
    | cons e es ih => intro t ht; exact ih _ (step_pending_addresses_unique t e ht)
  apply hgen
  intro i j hi
  simp [startup] at hi

/-- C12: in every reachable state no two slots in use hold the same source
address; and a first-contact advertisement (sender not the node itself, not
blacklisted, counter entry zero) from an address whose entry is in slot `i`
overwrites `sender_id`, `version`, `rank` and `counter` of that entry and
nothing else: nonce, timer and the other slots are kept, `next_nonce` does not
advance, and nothing is sent. -/
theorem pending_entry_unique_and_refreshed (s : State) (hreach : Reachable s) :
    (∀ i j, (s.pending_auths i).in_use = true → (s.pending_auths j).in_use = true →
      (s.pending_auths i).src_addr = (s.pending_auths j).src_addr → i = j) ∧
    (∀ (source_addr : uip_ipaddr_t) (data : List Nat) (sender_id version rank counter : Nat)
      (i : Fin MAX_PENDING_AUTH),
      sscanf_dio (c_payload data) = some (sender_id, version, rank, counter) →
      sender_id ≠ s.my_node_id →
      s.blacklisted (get_sender_index sender_id) = false →
      s.last_seen_counter (get_sender_index sender_id) = 0 →
      (s.pending_auths i).in_use = true → (s.pending_auths i).src_addr = source_addr →
      handle_dio_recv s source_addr data =
        ({ s with
           pending_auths := setAt s.pending_auths i
             { src_addr := (s.pending_auths i).src_addr
               sender_id := sender_id
               version := version
               rank := rank
               counter := counter
               nonce := (s.pending_auths i).nonce
               timeout_timer := (s.pending_auths i).timeout_timer
               in_use := (s.pending_auths i).in_use } },
         [])) := by
  have huniq := reachable_pending_addresses_unique s hreach
  refine ⟨huniq, ?_⟩
  intro source_addr data sender_id version rank counter i hscan hself hnotbl hzero hin haddr
  have hfind : find_pending_auth s.pending_auths source_addr = some i := by
    rw [find_pending_auth_eq_some_iff]
    refine ⟨⟨hin, haddr⟩, ?_⟩
    intro j hj
    have := huniq i j hin hj.1 (haddr.trans hj.2.symm)
    rw [this]
  exact handle_dio_recv_refresh s source_addr data _ _ _ _ i hscan hself hnotbl hzero hfind

/-- C12 with the challenge of B pending in slot 0: a second advertisement
`"2 1 400 3"` from B only rewrites the claimed fields of slot 0. -/
theorem pending_entry_unique_and_refreshed_witness :
    handle_dio_recv pendingB addrB (bytes "2 1 400 3") =
      ({ pendingB with
         pending_auths := setAt pendingB.pending_auths 0
           { src_addr := (pendingB.pending_auths 0).src_addr
             sender_id := 2
             version := 1
             rank := 400
             counter := 3
             nonce := (pendingB.pending_auths 0).nonce
             timeout_timer := (pendingB.pending_auths 0).timeout_timer
             in_use := (pendingB.pending_auths 0).in_use } },
       []) :=
  (pending_entry_unique_and_refreshed pendingB ⟨3, none, _, rfl⟩).2 addrB (bytes "2 1 400 3")
    2 1 400 3 0 (by decide) (by decide) (by decide) (by decide) (by decide) (by decide)

/-- C13: for a first-contact advertisement (sender not the node itself, not
blacklisted, counter entry zero) from an address that has no slot in use:
when all ten slots are in use nothing changes and nothing is sent; when some
slot is free, exactly one free slot is taken, holding the source address, the
four claimed fields and the old `next_nonce`, the other slots are unchanged,
and the AUTH-REQ with that nonce goes to the source address. -/
theorem first_contact_allocation (s : State) (source_addr : uip_ipaddr_t) (data : List Nat)
    (sender_id version rank counter : Nat)
    (hscan : sscanf_dio (c_payload data) = some (sender_id, version, rank, counter))
    (hself : sender_id ≠ s.my_node_id)
    (hnotbl : s.blacklisted (get_sender_index sender_id) = false)
    (hzero : s.last_seen_counter (get_sender_index sender_id) = 0)
    (hnone : ∀ j, (s.pending_auths j).in_use = true →
      (s.pending_auths j).src_addr ≠ source_addr) :
    ((∀ i, (s.pending_auths i).in_use = true) →
      handle_dio_recv s source_addr data = (s, [])) ∧
    ((∃ i, (s.pending_auths i).in_use = false) →
      ∃ i, (s.pending_auths i).in_use = false ∧
        (handle_dio_recv s source_addr data).1.pending_auths i =
          { src_addr := source_addr, sender_id := sender_id, version := version,
            rank := rank, counter := counter, nonce := s.next_nonce,
            timeout_timer := etimer.armed, in_use := true } ∧
        (∀ j, j ≠ i →
          (handle_dio_recv s source_addr data).1.pending_auths j = s.pending_auths j) ∧
        (handle_dio_recv s source_addr data).1.next_nonce = u32 (s.next_nonce + 1) ∧
        (handle_dio_recv s source_addr data).1.last_seen_counter = s.last_seen_counter ∧
        (handle_dio_recv s source_addr data).1.blacklisted = s.blacklisted ∧
        (handle_dio_recv s source_addr data).1.my_rank = s.my_rank ∧
        (handle_dio_recv s source_addr data).1.my_parent_id = s.my_parent_id ∧
        (handle_dio_recv s source_addr data).2 = [Msg.auth_req source_addr s.next_nonce]) := by
  have hfind : find_pending_auth s.pending_auths source_addr = none :=
    (find_pending_auth_eq_none_iff _ _).2 (fun j hj => hnone j hj.1 hj.2)
  constructor
  · intro hfull
    exact handle_dio_recv_pool_full s source_addr data _ _ _ _ hscan hzero hfind hfull
  · intro hsome
    obtain ⟨i, hfree, hlow⟩ := exists_lowest_free s.pending_auths hsome
    refine ⟨i, hfree, ?_⟩
    rw [handle_dio_recv_alloc s source_addr data _ _ _ _ i hscan hself hnotbl hzero hfind
      hfree hlow]
    refine ⟨?_, ?_, rfl, rfl, rfl, rfl, rfl, rfl⟩
    · simp [setAt]
    · intro j hji
      simp [setAt, hji]

/-- C13 at start-up (all slots free), where `"2 1 500 1"` from B takes a slot
with nonce 1 and sends `AUTH-REQ 1` to B, and with all ten slots in use for
other addresses, where the same advertisement changes nothing. -/
theorem first_contact_allocation_witness :
    (∃ i, ((startup 3 none).pending_auths i).in_use = false ∧
      (handle_dio_recv (startup 3 none) addrB (bytes "2 1 500 1")).1.pending_auths i =
        { src_addr := addrB, sender_id := 2, version := 1, rank := 500, counter := 1,
          nonce := 1, timeout_timer := etimer.armed, in_use := true } ∧
      (handle_dio_recv (startup 3 none) addrB (bytes "2 1 500 1")).2 =
        [Msg.auth_req addrB 1]) ∧
    handle_dio_recv fullPool addrB (bytes "2 1 500 1") = (fullPool, []) :=
  have h := (first_contact_allocation (startup 3 none) addrB (bytes "2 1 500 1") 2 1 500 1
    (by decide) (by decide) (by decide) (by decide) (by decide)).2 ⟨0, by decide⟩
  ⟨h.elim fun i hi => ⟨i, hi.1, hi.2.1, hi.2.2.2.2.2.2.2.2⟩,
   (first_contact_allocation fullPool addrB (bytes "2 1 500 1") 2 1 500 1
    (by decide) (by decide) (by decide) (by decide) (by decide)).1 (by decide)⟩

/-- C14 (scenario A): node 3 starts with rank 1000000, `next_nonce = 1` and
empty tables. The advertisement `"2 1 500 1"` from an address `X` makes it
send `AUTH-REQ 1` to `X` and changes neither rank, parent nor the two tables.
The response `"AUTH-RESP 1 2779096484"` from `X` then gives
`last_seen_counter[2] = 1`, `my_rank = 510`, `my_parent_id = 2`, parent
address `X`, and leaves no slot in use. -/
theorem scenario_A (X : uip_ipaddr_t) :
    (startup 3 none).is_root = false ∧ (startup 3 none).my_rank = 1000000 ∧
    (startup 3 none).next_nonce = 1 ∧
    (handle_dio_recv (startup 3 none) X (bytes "2 1 500 1")).2 = [Msg.auth_req X 1] ∧
    wire (Msg.auth_req X 1) = bytes "AUTH-REQ 1" ∧
    (handle_dio_recv (startup 3 none) X (bytes "2 1 500 1")).1.my_rank = 1000000 ∧
    (handle_dio_recv (startup 3 none) X (bytes "2 1 500 1")).1.my_parent_id = -1 ∧
    (handle_dio_recv (startup 3 none) X (bytes "2 1 500 1")).1.has_parent_addr = false ∧
    (handle_dio_recv (startup 3 none) X (bytes "2 1 500 1")).1.last_seen_counter =
      (startup 3 none).last_seen_counter ∧
    (handle_dio_recv (startup 3 none) X (bytes "2 1 500 1")).1.blacklisted =
      (startup 3 none).blacklisted ∧
    (handle_auth_recv (handle_dio_recv (startup 3 none) X (bytes "2 1 500 1")).1 X
      (bytes "AUTH-RESP 1 2779096484")).1.last_seen_counter 2 = 1 ∧
    (handle_auth_recv (handle_dio_recv (startup 3 none) X (bytes "2 1 500 1")).1 X
      (bytes "AUTH-RESP 1 2779096484")).1.my_rank = 510 ∧
    (handle_auth_recv (handle_dio_recv (startup 3 none) X (bytes "2 1 500 1")).1 X
      (bytes "AUTH-RESP 1 2779096484")).1.my_parent_id = 2 ∧
    (handle_auth_recv (handle_dio_recv (startup 3 none) X (bytes "2 1 500 1")).1 X
      (bytes "AUTH-RESP 1 2779096484")).1.parent_addr = X ∧
    (handle_auth_recv (handle_dio_recv (startup 3 none) X (bytes "2 1 500 1")).1 X
      (bytes "AUTH-RESP 1 2779096484")).1.has_parent_addr = true ∧
    (∀ i, ((handle_auth_recv (handle_dio_recv (startup 3 none) X (bytes "2 1 500 1")).1 X
      (bytes "AUTH-RESP 1 2779096484")).1.pending_auths i).in_use = false) ∧
    (handle_auth_recv (handle_dio_recv (startup 3 none) X (bytes "2 1 500 1")).1 X
      (bytes "AUTH-RESP 1 2779096484")).2 = [] := by
  have hfind0 : find_pending_auth (startup 3 none).pending_auths X = none :=
    (find_pending_auth_eq_none_iff _ _).2 (fun i hi => by simp [startup] at hi)
  have h1 := handle_dio_recv_alloc (startup 3 none) X (bytes "2 1 500 1") 2 1 500 1 0
    (by decide) (by decide) (by decide) (by decide) hfind0 (by decide)
    (fun j _ => Fin.zero_le j)
  rw [h1]
  have hfind1 : find_pending_auth
      (setAt (startup 3 none).pending_auths 0
        { src_addr := X, sender_id := 2, version := 1, rank := 500, counter := 1,
          nonce := (startup 3 none).next_nonce, timeout_timer := etimer.armed,
          in_use := true }) X = some 0 :=
    (find_pending_auth_eq_some_iff _ _ _).2 ⟨⟨by simp [setAt], by simp [setAt]⟩,
      fun j _ => Fin.zero_le j⟩
  have h2 := handle_auth_recv_resp_ok
    ({ startup 3 none with
       pending_auths := setAt (startup 3 none).pending_auths 0
         { src_addr := X, sender_id := 2, version := 1, rank := 500, counter := 1,
           nonce := (startup 3 none).next_nonce, timeout_timer := etimer.armed,
           in_use := true }
       next_nonce := u32 ((startup 3 none).next_nonce + 1) })
    X (bytes "AUTH-RESP 1 2779096484") 1 2779096484 0 (by decide) hfind1
    (by simp [setAt, startup]) (by decide)
  rw [if_pos ⟨rfl, (by decide : u32 (500 + RANK_INCREMENT) < DEFAULT_RANK)⟩] at h2
  rw [h2]
  refine ⟨by decide, by decide, by decide, rfl, rfl, rfl, rfl, rfl, rfl, rfl,
    rfl, rfl, rfl, rfl, rfl, ?_, rfl⟩
  intro i
  by_cases hi : i = 0
  · simp [setAt, free_pending_auth, hi]
  · simp [setAt, startup, hi]

/-- C16: `sign_nonce n` is `n XOR 0xA5A5A5A5`; `verify_nonce n sig` holds
exactly when `sig = sign_nonce n`, so `verify_nonce n (sign_nonce n)` always
holds; and a payload scanned as AUTH-REQ with nonce `n` (for a 32-bit `n`, in
particular the payload `send_auth_req` writes for `n`), from any address and
in any state, makes `handle_auth_recv` send the AUTH-RESP carrying
`(n, sign_nonce n)` to that address and change no node variable. -/
theorem sign_verify_and_auth_req (n sig : Nat) :
    sign_nonce n = n ^^^ 0xA5A5A5A5 ∧
    (verify_nonce n sig = true ↔ sig = sign_nonce n) ∧
    verify_nonce n (sign_nonce n) = true ∧
    (∀ (s : State) (source_addr : uip_ipaddr_t) (data : List Nat),
      sscanf_auth (c_payload data) = auth_scan.req n →
      handle_auth_recv s source_addr data =
        (s, [Msg.auth_resp source_addr n (sign_nonce n)])) ∧
    (n ≤ UINT32_MAX → ∀ (s : State) (source_addr dest : uip_ipaddr_t),
      handle_auth_recv s source_addr (wire (Msg.auth_req dest n)) =
        (s, [Msg.auth_resp source_addr n (sign_nonce n)])) := by
  refine ⟨rfl, ?_, ?_, ?_, ?_⟩
  · simp [verify_nonce, sign_nonce]
  · simp [verify_nonce, sign_nonce]
  · intro s source_addr data hscan
    simp [handle_auth_recv, hscan]
  · intro hn s source_addr dest
    have hscan := sscanf_auth_wire_req dest n
    rw [u32_of_le n hn] at hscan
    simp [handle_auth_recv, hscan]

/-- C16 on `"AUTH-REQ 1"` received from B while B's own challenge is pending:
the answer is `AUTH-RESP 1 2779096484` and the state is kept. -/
theorem sign_verify_and_auth_req_witness :
    sign_nonce 1 = 2779096484 ∧
    handle_auth_recv pendingB addrB (bytes "AUTH-REQ 1") =
      (pendingB, [Msg.auth_resp addrB 1 (sign_nonce 1)]) ∧
    wire (Msg.auth_resp addrB 1 (sign_nonce 1)) = bytes "AUTH-RESP 1 2779096484" :=
  ⟨by decide,
   (sign_verify_and_auth_req 1 0).2.2.2.1 pendingB addrB (bytes "AUTH-REQ 1") (by decide),
   by decide⟩

/-- C19, as stated, fails: node 3 in scenario B (not root, parent B) forwards
`"3 7 hello"`, whose destination 7 is neither 0 nor the root id 1, to B. -/
theorem data_forwarded_whatever_destination :
    ¬ ∀ (s : State) (data : List Nat) (src_id dst_id : Nat),
        sscanf_data (c_payload data) = some (src_id, dst_id) →
        s.is_root = false → dst_id ≠ 0 → dst_id ≠ 1 →
        (handle_data_recv s data).2 = [] := by
  intro h
  have h1 := h scenarioB (bytes "3 7 hello") 3 7 (by decide) (by decide) (by decide)
    (by decide)
  revert h1
  decide

/-- C19, amended: for a well-formed data message, a non-root node with a
parent (`my_parent_id >= 0` and `has_parent_addr`) forwards the received
string to `parent_addr` whatever `dst_id` is, and sends nothing without a
parent; a root node sends nothing (it consumes the message when `dst_id` is 0
and drops it otherwise); the node variables are never changed. -/
theorem handle_data_recv_forwarding (s : State) (data : List Nat) (src_id dst_id : Nat)
    (hscan : sscanf_data (c_payload data) = some (src_id, dst_id)) :
    (s.is_root = false → 0 ≤ s.my_parent_id → s.has_parent_addr = true →
      (handle_data_recv s data).2 = [Msg.data s.parent_addr (c_payload data)]) ∧
    (s.is_root = false → ¬ (0 ≤ s.my_parent_id ∧ s.has_parent_addr = true) →
      (handle_data_recv s data).2 = []) ∧
    (s.is_root = true → (handle_data_recv s data).2 = []) ∧
    (handle_data_recv s data).1 = s := by
  refine ⟨?_, ?_, ?_, handle_data_recv_state s data⟩
  · intro hroot hpar haddr
    simp [handle_data_recv, hscan, hroot, hpar, haddr]
  · intro hroot hno
    simp only [handle_data_recv, hscan, hroot]
    simp only [Bool.false_eq_true, false_and, if_false, true_and]
    rw [if_neg hno]
  · intro hroot
    simp only [handle_data_recv, hscan, hroot]
    by_cases hd : dst_id = 0 <;> simp [hd]

/-- C19, amended, in scenario B: node 3 forwards `"3 0 hello"` to its parent
B and leaves its variables as they were. -/
theorem handle_data_recv_forwarding_witness :
    (handle_data_recv scenarioB (bytes "3 0 hello")).2 =
      [Msg.data addrB (bytes "3 0 hello")] ∧
    (handle_data_recv scenarioB (bytes "3 0 hello")).1 = scenarioB :=
  have h := handle_data_recv_forwarding scenarioB (bytes "3 0 hello") 3 0 (by decide)
  ⟨(h.1 (by decide) (by decide) (by decide)).trans (by decide), h.2.2.2⟩

/-- C20 fails on the code: two addresses claim sender 2 at first contact; the
challenge of the first times out, which blacklists index 2 with counter
`UINT32_MAX` while the second challenge stays pending; the response to the
second challenge then stores counter 1 and makes sender 2 the parent,
although index 2 is blacklisted. -/
theorem blacklisted_sender_verified :
    blacklistedPending.blacklisted 2 = true ∧
    blacklistedPending.last_seen_counter 2 = UINT32_MAX ∧
    (blacklistedPending.pending_auths 1).in_use = true ∧
    blacklistedThenVerified =
      (step blacklistedPending (Event.auth addrC (bytes "AUTH-RESP 2 2779096487"))).1 ∧
    Reachable blacklistedThenVerified ∧
    blacklistedThenVerified.blacklisted 2 = true ∧
    blacklistedThenVerified.last_seen_counter 2 = 1 ∧
    blacklistedThenVerified.last_seen_counter 2 ≠ UINT32_MAX ∧
    blacklistedThenVerified.my_parent_id = 2 ∧
    blacklistedThenVerified.my_rank = 510 :=
  ⟨by decide, by decide, by decide, rfl, ⟨3, none, _, rfl⟩, by decide, by decide, by decide,
   by decide, by decide⟩

/-- The rest `scan_digits` leaves is the input without its leading digits. -/
theorem scan_digits_rest (l : List Nat) (acc : Nat) :
    (scan_digits acc l).2 = l.dropWhile isdigit := by
  induction l generalizing acc with
  | nil => simp [scan_digits]
  | cons c cs ih =>
    by_cases hc : isdigit c = true
    · simp [scan_digits, hc, List.dropWhile, ih]
    · simp [scan_digits, hc, List.dropWhile]

/-- `%u` converts exactly when the input begins with an integer, and then
leaves what follows the digits. -/
theorem scan_u32_iff_begins (k : Nat) (inp : List Nat) :
    begins_with_integers (k + 1) inp =
      match scan_u32 inp with
      | none => false
      | some (_, r) => begins_with_integers k r := by
  simp only [begins_with_integers, scan_u32]
  split
  · rfl
  · rename_i c tl heq
    by_cases hc : isdigit c = true
    · simp [hc, scan_digits_rest]
    · simp [hc]

/-- `sscanf` with the advertisement format converts fewer than four fields
exactly when the payload does not begin with four integers. -/
theorem sscanf_dio_none_iff (p : List Nat) :
    sscanf_dio p = none ↔ begins_with_integers 4 p = false := by
  rw [scan_u32_iff_begins 3 p]
  unfold sscanf_dio
  cases h1 : scan_u32 p with
  | none => simp
  | some r1 =>
    obtain ⟨v1, p1⟩ := r1
    simp only []
    rw [scan_u32_iff_begins 2 p1]
    cases h2 : scan_u32 p1 with
    | none => simp
    | some r2 =>
      obtain ⟨v2, p2⟩ := r2
      simp only []
      rw [scan_u32_iff_begins 1 p2]
      cases h3 : scan_u32 p2 with
      | none => simp
      | some r3 =>
        obtain ⟨v3, p3⟩ := r3
        simp only []
        rw [scan_u32_iff_begins 0 p3]
        cases h4 : scan_u32 p3 with
        | none => simp
        | some r4 =>
          obtain ⟨v4, p4⟩ := r4
          simp [begins_with_integers]

/-- The scanning steps of `handle_auth_recv` give up exactly when the payload
does not begin with a tag and its integers. -/
theorem sscanf_auth_ignored_iff (p : List Nat) :
    sscanf_auth p = auth_scan.ignored ↔ begins_with_auth p = false := by
  unfold sscanf_auth begins_with_auth
  cases hs : scan_s 15 p with
  | none => simp
  | some r =>
    obtain ⟨tag, rest⟩ := r
    simp only []
    by_cases hreq : tag = bytes "AUTH-REQ"
    · simp only [hreq, if_true]
      cases hl : scan_lit (bytes "AUTH-REQ") p with
      | none => simp
      | some r1 =>
        simp only []
        rw [scan_u32_iff_begins 0 r1]
        cases h1 : scan_u32 r1 with
        | none => simp
        | some v =>
          obtain ⟨v1, p1⟩ := v
          simp [begins_with_integers]
    · by_cases hresp : tag = bytes "AUTH-RESP"
      · have hne : ¬ bytes "AUTH-RESP" = bytes "AUTH-REQ" := by decide
        subst hresp
        simp only [hne, if_true, if_false]
        cases hl : scan_lit (bytes "AUTH-RESP") p with
        | none => simp
        | some r1 =>
          simp only []
          rw [scan_u32_iff_begins 1 r1]
          cases h1 : scan_u32 r1 with
          | none => simp
          | some v =>
            obtain ⟨v1, p1⟩ := v
            simp only []
            rw [scan_u32_iff_begins 0 p1]
            cases h2 : scan_u32 p1 with
            | none => simp
            | some w =>
              obtain ⟨v2, p2⟩ := w
              simp [begins_with_integers]
      · simp [hreq, hresp]

/-- C18, as stated, fails: `"2 1 500 1 junk"` is not four unsigned decimal
integers, yet node 3 at start-up opens a challenge for it and sends
`AUTH-REQ 1`; `"AUTH-REQ 5 junk"` is not `AUTH-REQ <nonce>`, yet it is
answered. -/
theorem trailing_bytes_not_discarded :
    ¬ ∀ (s : State) (source_addr : uip_ipaddr_t) (data : List Nat),
        (four_unsigned_integers data = false → handle_dio_recv s source_addr data = (s, [])) ∧
        (auth_req_or_resp data = false → handle_auth_recv s source_addr data = (s, [])) := by
  intro h
  have h1 := (h (startup 3 none) addrB (bytes "2 1 500 1 junk")).1 (by decide)
  have h2 : (handle_dio_recv (startup 3 none) addrB (bytes "2 1 500 1 junk")).2 = [] := by
    rw [h1]
  revert h2
  decide

/-- C18, amended: a payload that does not begin with four integers as `%u`
reads them is ignored by `handle_dio_recv`, and a payload that does not begin
with the tag `AUTH-REQ` and one integer or the tag `AUTH-RESP` and two
integers is ignored by `handle_auth_recv`: the state is returned unchanged
and nothing is sent. (Bytes after the last integer are not looked at, so a
payload that only has such bytes in excess is processed.) -/
theorem malformed_payload_ignored (s : State) (source_addr : uip_ipaddr_t)
    (data : List Nat) :
    (begins_with_integers 4 (c_payload data) = false →
      handle_dio_recv s source_addr data = (s, [])) ∧
    (begins_with_auth (c_payload data) = false →
      handle_auth_recv s source_addr data = (s, [])) := by
  constructor
  · intro h
    have hscan := (sscanf_dio_none_iff _).2 h
    simp [handle_dio_recv, hscan]
  · intro h
    have hscan := (sscanf_auth_ignored_iff _).2 h
    simp [handle_auth_recv, hscan]

/-- C18, amended, in scenario B: the three-integer advertisement `"2 1 500"`
and the request `"AUTH-REQ x"` change nothing and are not answered. -/
theorem malformed_payload_ignored_witness :
    handle_dio_recv scenarioB addrB (bytes "2 1 500") = (scenarioB, []) ∧
    handle_auth_recv scenarioB addrB (bytes "AUTH-REQ x") = (scenarioB, []) :=
  ⟨(malformed_payload_ignored scenarioB addrB (bytes "2 1 500")).1 (by decide),
   (malformed_payload_ignored scenarioB addrB (bytes "AUTH-REQ x")).2 (by decide)⟩

/-! ## Lemmas on the nonces -/

/-- The challenges issued along a run carry consecutive nonces modulo 2^32,
starting with `next_nonce`. -/
theorem issued_nonces_consecutive (es : List Event) (s : State) (c : Nat)
    (hc : s.next_nonce = u32 c) :
    issued_nonces s es = (List.range' c (issued_nonces s es).length).map u32 := by
  induction es generalizing s c with
  | nil => simp [issued_nonces]
  | cons e es ih =>
    rcases step_pool_cases s e with ⟨_, hnext, hout⟩ | ⟨a, k, _, _, _, _, _, _, hnext, hout⟩
    · have h1 := ih (step s e).1 c (hnext.trans hc)
      simp only [issued_nonces, hout, List.nil_append]
      exact h1
    · have hnext' : (step s e).1.next_nonce = u32 (c + 1) := by
        rw [hnext, hc]
        unfold u32
        omega
      have h1 := ih (step s e).1 (c + 1) hnext'
      have hreq : req_nonces (step s e).2 = [u32 c] := by
        rw [hout, ← hc]
        rfl
      simp only [issued_nonces, hreq, List.singleton_append, List.length_cons]
      rw [List.range'_succ, List.map_cons]
      congr 1

/-- The run of a concatenation of event sequences. -/
theorem run_append (es1 es2 : List Event) (s : State) :
    run s (es1 ++ es2) = run (run s es1) es2 := by
  induction es1 generalizing s with
  | nil => rfl
  | cons e es ih => exact ih _

/-- The nonces issued along a concatenation of event sequences. -/
theorem issued_nonces_append (es1 es2 : List Event) (s : State) :
    issued_nonces s (es1 ++ es2) = issued_nonces s es1 ++ issued_nonces (run s es1) es2 := by
  induction es1 generalizing s with
  | nil => rfl
  | cons e es ih =>
    simp only [List.cons_append, issued_nonces, run, List.append_assoc]
    exact congrArg _ (ih _)
/-- A signature is a 32-bit value when the nonce is. -/
theorem sign_nonce_u32 (c : Nat) : u32 (sign_nonce (u32 c)) = sign_nonce (u32 c) := by
  have h1 : u32 c < 2 ^ 32 := by unfold u32; omega
  have h2 : SHARED_KEY < 2 ^ 32 := by decide
  have h3 : sign_nonce (u32 c) < 2 ^ 32 := Nat.xor_lt_two_pow h1 h2
  exact Nat.mod_eq_of_lt h3

/-- One round of first contact leaves the node idle again, with the next
nonce, and issues exactly the challenge `c mod 2^32`. -/
theorem challenge_round_idle (s : State) (c : Nat) (h : idle_for_sender_2 s c) :
    idle_for_sender_2 (run s (challenge_round (u32 c))) (c + 1) ∧
    issued_nonces s (challenge_round (u32 c)) = [u32 c] := by
  obtain ⟨hid, hfree, hzero, hnb, hnext⟩ := h
  have hfind0 : find_pending_auth s.pending_auths addrB = none :=
    (find_pending_auth_eq_none_iff _ _).2 (fun i hi => by rw [hfree i] at hi; simp at hi)
  have h1 := handle_dio_recv_alloc s addrB (bytes "2 1 500 0") 2 1 500 0 0 (by decide)
    (by rw [hid]; decide) hnb hzero hfind0 (hfree 0) (fun j _ => Fin.zero_le j)
  have hscan2 : sscanf_auth (c_payload (wire (Msg.auth_resp addrB (u32 c)
      (sign_nonce (u32 c))))) = auth_scan.resp (u32 c) (sign_nonce (u32 c)) := by
    rw [sscanf_auth_wire_resp, sign_nonce_u32]
    congr 1
    unfold u32
    omega
  have hfind1 : find_pending_auth (handle_dio_recv s addrB (bytes "2 1 500 0")).1.pending_auths
      addrB = some 0 := by
    rw [h1]
    exact (find_pending_auth_eq_some_iff _ _ _).2 ⟨⟨by simp [setAt], by simp [setAt]⟩,
      fun j _ => Fin.zero_le j⟩
  have hnonce1 : ((handle_dio_recv s addrB (bytes "2 1 500 0")).1.pending_auths 0).nonce =
      u32 c := by
    rw [h1]
    simp [setAt, hnext]
  have h2 := handle_auth_recv_resp_ok (handle_dio_recv s addrB (bytes "2 1 500 0")).1 addrB
    (wire (Msg.auth_resp addrB (u32 c) (sign_nonce (u32 c)))) (u32 c) (sign_nonce (u32 c)) 0
    hscan2 hfind1 hnonce1 rfl
  have hrun : run s (challenge_round (u32 c)) =
      (handle_auth_recv (handle_dio_recv s addrB (bytes "2 1 500 0")).1 addrB
        (wire (Msg.auth_resp addrB (u32 c) (sign_nonce (u32 c))))).1 := rfl
  have hiss : issued_nonces s (challenge_round (u32 c)) =
      req_nonces (handle_dio_recv s addrB (bytes "2 1 500 0")).2 ++
        (req_nonces (handle_auth_recv (handle_dio_recv s addrB (bytes "2 1 500 0")).1 addrB
          (wire (Msg.auth_resp addrB (u32 c) (sign_nonce (u32 c))))).2 ++ []) := rfl
  have hnext1 : u32 (u32 c + 1) = u32 (c + 1) := by unfold u32; omega
  constructor
  · rw [hrun, h2, h1]
    split
    · refine ⟨hid, ?_, ?_, hnb, ?_⟩
      · intro i
        by_cases hi : i = 0
        · simp [setAt, free_pending_auth, hi]
        · simp [setAt, hi, hfree i]
      · simp [setAt]
      · simp [hnext, hnext1]
    · refine ⟨hid, ?_, ?_, hnb, ?_⟩
      · intro i
        by_cases hi : i = 0
        · simp [setAt, free_pending_auth, hi]
        · simp [setAt, hi, hfree i]
      · simp [setAt]
      · simp [hnext, hnext1]
  · rw [hiss, h2, h1]
    simp [req_nonces, hnext]

/-- `n` rounds of first contact issue `n` challenges and leave the node
idle. -/
theorem challenge_rounds_issued (n : Nat) (s : State) (c : Nat)
    (h : idle_for_sender_2 s c) :
    (issued_nonces s (challenge_rounds c n)).length = n := by
  induction n generalizing s c with
  | zero => rfl
  | succ n ih =>
    have hr := challenge_round_idle s c h
    simp only [challenge_rounds]
    rw [issued_nonces_append, hr.2, List.length_append, ih _ (c + 1) hr.1]
    simp
    omega
/-- While the nonces have not wrapped, the nonces of the slots in use stay
below the count of nonces handed out and stay pairwise distinct. -/
theorem in_use_nonces_distinct (es : List Event) (s : State) (c : Nat)
    (hc : s.next_nonce = u32 c)
    (hfew : c + (issued_nonces s es).length ≤ 4294967296)
    (hbelow : ∀ i, (s.pending_auths i).in_use = true → (s.pending_auths i).nonce < c)
    (hdist : ∀ i j, (s.pending_auths i).in_use = true → (s.pending_auths j).in_use = true →
      (s.pending_auths i).nonce = (s.pending_auths j).nonce → i = j) :
    (∀ i, ((run s es).pending_auths i).in_use = true →
      ((run s es).pending_auths i).nonce < c + (issued_nonces s es).length) ∧
    (∀ i j, ((run s es).pending_auths i).in_use = true →
      ((run s es).pending_auths j).in_use = true →
      ((run s es).pending_auths i).nonce = ((run s es).pending_auths j).nonce → i = j) := by
  induction es generalizing s c with
  | nil => exact ⟨fun i hi => by simpa [issued_nonces, run] using hbelow i hi, hdist⟩
  | cons e es ih =>
    rcases step_pool_cases s e with ⟨hold, hnext, hout⟩ |
      ⟨a, k, hkfree, _, hkin, _, hknonce, hother, hnext, hout⟩
    · have hlen : (issued_nonces s (e :: es)).length =
          (issued_nonces (step s e).1 es).length := by
        simp [issued_nonces, hout]
      rw [hlen] at hfew ⊢
      refine ih (step s e).1 c (hnext.trans hc) hfew ?_ ?_
      · intro i hi
        have h1 := hold i hi
        rw [h1.2.2]
        exact hbelow i h1.1
      · intro i j hi hj hij
        have h1 := hold i hi
        have h2 := hold j hj
        rw [h1.2.2, h2.2.2] at hij
        exact hdist i j h1.1 h2.1 hij
    · have hreq : req_nonces (step s e).2 = [s.next_nonce] := by
        rw [hout]
        rfl
      have hlen : (issued_nonces s (e :: es)).length =
          (issued_nonces (step s e).1 es).length + 1 := by
        simp [issued_nonces, hreq]
      rw [hlen] at hfew ⊢
      have hclt : c < 4294967296 := by omega
      have hcu : u32 c = c := Nat.mod_eq_of_lt hclt
      have hnext' : (step s e).1.next_nonce = u32 (c + 1) := by
        rw [hnext, hc, hcu]
      have hbelow' : ∀ i, ((step s e).1.pending_auths i).in_use = true →
          ((step s e).1.pending_auths i).nonce < c + 1 := by
        intro i hi
        by_cases hik : i = k
        · rw [hik, hknonce, hc, hcu]
          omega
        · rw [hother i hik] at hi ⊢
          have := hbelow i hi
          omega
      have hdist' : ∀ i j, ((step s e).1.pending_auths i).in_use = true →
          ((step s e).1.pending_auths j).in_use = true →
          ((step s e).1.pending_auths i).nonce = ((step s e).1.pending_auths j).nonce →
          i = j := by
        intro i j hi hj hij
        by_cases hik : i = k
        · by_cases hjk : j = k
          · rw [hik, hjk]
          · exfalso
            rw [hother j hjk] at hj hij
            rw [hik, hknonce, hc, hcu] at hij
            have := hbelow j hj
            omega
        · by_cases hjk : j = k
          · exfalso
            rw [hother i hik] at hi hij
            rw [hjk, hknonce, hc, hcu] at hij
            have := hbelow i hi
            omega
          · rw [hother i hik] at hi hij
            rw [hother j hjk] at hj hij
            exact hdist i j hi hj hij
      have h := ih (step s e).1 (c + 1) hnext' (by omega) hbelow' hdist'
      refine ⟨?_, h.2⟩
      intro i hi
      have := h.1 i hi
      simp only [run] at hi ⊢
      omega

/-! ## Properties of the specification: the nonces -/

/-- C17, as stated, fails: node 3 can run 2^32 rounds of first contact with
sender 2 (advertisement with counter 0, challenge answered); the first
challenge carries nonce 1 and the last one nonce 0, so the nonces issued are
not strictly increasing. -/
theorem nonce_wraps_around :
    ¬ ∀ (node_id : Nat) (global_addr : Option uip_ipaddr_t) (es : List Event),
        (issued_nonces (startup node_id global_addr) es).Pairwise (fun a b => a < b) := by
  intro h
  have hidle : idle_for_sender_2 (startup 3 none) 1 :=
    ⟨by decide, fun i => rfl, by decide, by decide, by decide⟩
  have hlen := challenge_rounds_issued 4294967296 (startup 3 none) 1 hidle
  have hform := issued_nonces_consecutive (challenge_rounds 1 4294967296) (startup 3 none) 1
    (by decide)
  rw [hlen] at hform
  have hp := h 3 none (challenge_rounds 1 4294967296)
  rw [hform] at hp
  have hl : ((List.range' 1 4294967296).map u32).length = 4294967296 := by
    rw [List.length_map, List.length_range']
  have h0 := List.pairwise_iff_getElem.1 hp 0 4294967295 (by rw [hl]; decide)
    (by rw [hl]; decide) (by decide)
  rw [List.getElem_map, List.getElem_map, List.getElem_range', List.getElem_range'] at h0
  revert h0
  decide

/-- C17, amended: along a run from start-up that has issued fewer than 2^32
challenges, the challenges carry the nonces 1, 2, 3, ... in the order of
issue, so each new nonce is strictly greater than every earlier one, and the
nonces of the slots in use are pairwise distinct. -/
theorem nonces_increase_until_wrap (node_id : Nat) (global_addr : Option uip_ipaddr_t)
    (es : List Event)
    (hfew : (issued_nonces (startup node_id global_addr) es).length < 4294967296) :
    issued_nonces (startup node_id global_addr) es =
      List.range' 1 (issued_nonces (startup node_id global_addr) es).length ∧
    (issued_nonces (startup node_id global_addr) es).Pairwise (fun a b => a < b) ∧
    (∀ i j, ((run (startup node_id global_addr) es).pending_auths i).in_use = true →
      ((run (startup node_id global_addr) es).pending_auths j).in_use = true →
      ((run (startup node_id global_addr) es).pending_auths i).nonce =
        ((run (startup node_id global_addr) es).pending_auths j).nonce → i = j) := by
  have hform := issued_nonces_consecutive es (startup node_id global_addr) 1 rfl
  have hid : (List.range' 1 (issued_nonces (startup node_id global_addr) es).length).map u32 =
      List.range' 1 (issued_nonces (startup node_id global_addr) es).length := by
    have : ∀ x ∈ List.range' 1 (issued_nonces (startup node_id global_addr) es).length,
        u32 x = x := by
      intro x hx
      rw [List.mem_range'_1] at hx
      exact Nat.mod_eq_of_lt (by omega)
    rw [List.map_congr_left this, List.map_id']
  rw [hid] at hform
  have hinv := in_use_nonces_distinct es (startup node_id global_addr) 1 rfl (by omega)
    (fun i hi => by simp [startup] at hi) (fun i j hi => by simp [startup] at hi)
  refine ⟨hform, ?_, hinv.2⟩
  rw [hform]
  exact List.pairwise_lt_range' 1 _

/-- C17, amended, on two first contacts from different addresses: the
challenges carry nonces 1 and 2. -/
theorem nonces_increase_until_wrap_witness :
    issued_nonces (startup 3 none)
      [Event.dio addrB (bytes "2 1 500 1"), Event.dio addrC (bytes "2 1 500 1")] = [1, 2] :=
  (nonces_increase_until_wrap 3 none
    [Event.dio addrB (bytes "2 1 500 1"), Event.dio addrC (bytes "2 1 500 1")]
    (by decide)).1.trans (by decide)

/-! ## The verified response within the 32-bit range -/

/-- A verified AUTH-RESP for the entry `pa` in the lowest slot in use for the
source address, while `pa.rank + RANK_INCREMENT` stays within 32 bits: the
counter `pa.counter` is stored at index `pa.sender_id % 256` and at no other
index; a non-root node with `pa.rank + RANK_INCREMENT < my_rank` takes that
sum as its rank and the sender and source address as its parent, any other
node keeps rank and parent; the slot is freed; the other slots,
`blacklisted` and `next_nonce` are kept; nothing is sent. -/
theorem handle_auth_recv_resp_verified_in_range (s : State) (source_addr : uip_ipaddr_t)
    (data : List Nat) (nonce sig : Nat) (i : Fin MAX_PENDING_AUTH)
    (hscan : sscanf_auth (c_payload data) = auth_scan.resp nonce sig)
    (hin : (s.pending_auths i).in_use = true)
    (haddr : (s.pending_auths i).src_addr = source_addr)
    (hfirst : ∀ j, (s.pending_auths j).in_use = true ∧
      (s.pending_auths j).src_addr = source_addr → i ≤ j)
    (hnonce : nonce = (s.pending_auths i).nonce)
    (hsig : sig = nonce ^^^ SHARED_KEY)
    (hrange : (s.pending_auths i).rank + RANK_INCREMENT ≤ UINT32_MAX) :
    (∀ k : Fin 256, (k : Nat) = (s.pending_auths i).sender_id % 256 →
      (handle_auth_recv s source_addr data).1.last_seen_counter k =
        (s.pending_auths i).counter) ∧
    (∀ k : Fin 256, (k : Nat) ≠ (s.pending_auths i).sender_id % 256 →
      (handle_auth_recv s source_addr data).1.last_seen_counter k = s.last_seen_counter k) ∧
    (s.is_root = false ∧ (s.pending_auths i).rank + RANK_INCREMENT < s.my_rank →
      (handle_auth_recv s source_addr data).1.my_rank =
        (s.pending_auths i).rank + RANK_INCREMENT ∧
      (handle_auth_recv s source_addr data).1.my_parent_id =
        to_int (s.pending_auths i).sender_id ∧
      (handle_auth_recv s source_addr data).1.parent_addr = source_addr ∧
      (handle_auth_recv s source_addr data).1.has_parent_addr = true) ∧
    (¬ (s.is_root = false ∧ (s.pending_auths i).rank + RANK_INCREMENT < s.my_rank) →
      (handle_auth_recv s source_addr data).1.my_rank = s.my_rank ∧
      (handle_auth_recv s source_addr data).1.my_parent_id = s.my_parent_id ∧
      (handle_auth_recv s source_addr data).1.parent_addr = s.parent_addr ∧
      (handle_auth_recv s source_addr data).1.has_parent_addr = s.has_parent_addr) ∧
    (handle_auth_recv s source_addr data).1.pending_auths i =
      { s.pending_auths i with timeout_timer := etimer.stopped, in_use := false } ∧
    (∀ j, j ≠ i →
      (handle_auth_recv s source_addr data).1.pending_auths j = s.pending_auths j) ∧
    (handle_auth_recv s source_addr data).1.blacklisted = s.blacklisted ∧
    (handle_auth_recv s source_addr data).1.next_nonce = s.next_nonce ∧
    (handle_auth_recv s source_addr data).2 = [] := by
  have hf : find_pending_auth s.pending_auths source_addr = some i :=
    (find_pending_auth_eq_some_iff _ _ _).2 ⟨⟨hin, haddr⟩, hfirst⟩
  have hu := u32_of_le _ hrange
  have hat : ∀ k : Fin 256, (k : Nat) = (s.pending_auths i).sender_id % 256 →
      setAt s.last_seen_counter (get_sender_index (s.pending_auths i).sender_id)
        (s.pending_auths i).counter k = (s.pending_auths i).counter := by
    intro k hk
    simp [setAt, (get_sender_index_eq _ k).2 hk]
  have hoff : ∀ k : Fin 256, (k : Nat) ≠ (s.pending_auths i).sender_id % 256 →
      setAt s.last_seen_counter (get_sender_index (s.pending_auths i).sender_id)
        (s.pending_auths i).counter k = s.last_seen_counter k := by
    intro k hk
    have : k ≠ get_sender_index (s.pending_auths i).sender_id :=
      fun h => hk ((get_sender_index_eq _ k).1 h)
    simp [setAt, this]
  have hslot : setAt s.pending_auths i (free_pending_auth (s.pending_auths i)) i =
      { s.pending_auths i with timeout_timer := etimer.stopped, in_use := false } := by
    simp [setAt, free_pending_auth]
  have hrest : ∀ j, j ≠ i →
      setAt s.pending_auths i (free_pending_auth (s.pending_auths i)) j = s.pending_auths j := by
    intro j hj
    simp [setAt, hj]
  rw [handle_auth_recv_resp_ok s source_addr data nonce sig i hscan hf hnonce.symm hsig, hu]
  by_cases hcond : s.is_root = false ∧ (s.pending_auths i).rank + RANK_INCREMENT < s.my_rank
  · rw [if_pos hcond]
    exact ⟨hat, hoff, fun _ => ⟨rfl, rfl, rfl, rfl⟩, fun h => absurd hcond h, hslot, hrest,
      rfl, rfl, rfl⟩
  · rw [if_neg hcond]
    exact ⟨hat, hoff, fun h => absurd h hcond, fun _ => ⟨rfl, rfl, rfl, rfl⟩, hslot, hrest,
      rfl, rfl, rfl⟩

end RplReplayDemo
